import Mathlib

/-!
# Implicit solve loop of the structured-mesh Euler solver

A shallow embedding of `src/solver/solver.h` (class `Solver`) and
`src/linearsolver/ls_petsc.h` (class `LinearSolverPetsc`).

Conventions of the embedding.

* A C array reached through a pointer (`T *q`, `unsigned int *rind`, ...) is a total
  function `Nat → α`; writing `a[i] = v` is `Function.update a i v`.  The three
  dimensional array `mesh->solution->q[i][j][k]` is a function on index triples.
* `double` is an arbitrary linearly ordered field `α`, so the definitions run on `ℚ`.
  `sqrt` and `pow` of `<cmath>` are parameters; the theorems that need their meaning
  are stated over `ℝ` with `Real.sqrt` and real powers.  Rounding and infinities are
  outside the model.  The ramp assignments are defined over any type with a comparison,
  and `Double α` adds NaN to the numbers so that a domain error of `pow` can be followed
  through them.
* Index arithmetic (`uint`) is done in `Nat`: array lengths `nic*njc*nq` are taken to be
  representable, as `allocate_1d_array<T>(nic*njc*nq)` needs, so no wrap-around is
  modelled (the agreement with 32-bit arithmetic is stated with the flattening).  The iteration
  counter is unbounded as well.
* A counted loop `for(uint i=0; i<n; i++) body` is `forLoop body n`.
* Collaborators whose code is not part of the solver core (residual evaluation, the
  differentiation engine, the Krylov solve, restart input) are parameters, collected
  in `Env`.
-/

namespace Structured

/-- The loop `for(uint i=0; i<n; i++){ s = body i s; }`. -/
def forLoop {σ : Type*} (body : Nat → σ → σ) : Nat → σ → σ
  | 0, s => s
  | n + 1, s => body n (forLoop body n s)

/-- The function `std::min(a, b)` of the C++ library: `(b < a) ? b : a`. -/
def std_min {α : Type*} [LT α] [DecidableRel (fun (a b : α) => a < b)] (a b : α) : α :=
  if b < a then b else a

/-- The flattened position `i*njc*nq + j*nq + k` used by every loop of `Solver`. -/
def flat (njc nq i j k : Nat) : Nat := i * njc * nq + j * nq + k

/-! ## `primvars` of `utils.h` -/

/-- The function `primvars(Q, &rho, &u, &v, &p)` of `utils.h`: the values stored through
the four pointers. -/
def primvars {α : Type*} [LinearOrderedField α] (GAMMA : α) (Q : Nat → α) : α × α × α × α :=
  let tmp_rho := Q 0
  let tmp_u := Q 1 / tmp_rho
  let tmp_v := Q 2 / tmp_rho
  (Q 0, Q 1 / Q 0, Q 2 / Q 0,
    (Q 3 - 0.5 * tmp_rho * (tmp_u * tmp_u + tmp_v * tmp_v)) * (GAMMA - 1))

/-! ## `Solver::calc_dt` -/

/-- Body of the loops of `Solver::calc_dt` for the cell `(i, j)`:
the value stored at `dt[i*njc + j]`.  `abs` is the absolute value of a `double`. -/
def calc_dt_cell {α : Type*} [LinearOrderedField α] (sqrt : α → α) (GAMMA CFL : α)
    (njc nq : Nat) (ds_eta ds_chi : Nat → Nat → α) (q : Nat → α) (i j : Nat) : α :=
  let rho := q (i * njc * nq + j * nq + 0)
  let u := q (i * njc * nq + j * nq + 1) / rho
  let v := q (i * njc * nq + j * nq + 2) / rho
  let rhoE := q (i * njc * nq + j * nq + 3)
  let p := (rhoE - 0.5 * rho * (u * u + v * v)) * (GAMMA - 1.0)
  let lambda := sqrt (GAMMA * p / rho) + |u| + |v|
  std_min (ds_eta i j) (ds_chi i j) / lambda * CFL

/-- The method `Solver::calc_dt`: fills `dt[i*njc + j]` for every cell. -/
def calc_dt {α : Type*} [LinearOrderedField α] (sqrt : α → α) (GAMMA CFL : α)
    (nic njc nq : Nat) (ds_eta ds_chi : Nat → Nat → α) (q : Nat → α)
    (dt : Nat → α) : Nat → α :=
  forLoop (fun i dt =>
    forLoop (fun j dt =>
      Function.update dt (i * njc + j)
        (calc_dt_cell sqrt GAMMA CFL njc nq ds_eta ds_chi q i j)) njc dt) nic dt

/-! ## The Jacobian transform of `Solver::solve` -/

/-- Sparse matrix in coordinate form, as `sparse_jac` returns it:
`nnz` entries `(rind[k], cind[k], values[k])`. -/
structure Triples (α : Type*) where
  nnz : Nat
  rind : Nat → Nat
  cind : Nat → Nat
  values : Nat → α

/-- One pass of the loop body
`dt_local = dt[rind[i]/nq]; values[i] = -values[i];
 if(rind[i] == cind[i]){values[i] += 1.0/dt_local;}`. -/
def jac_transform_body {α : Type*} [Neg α] [Add α] [Div α] [One α]
    (nq : Nat) (dt : Nat → α) (rind cind : Nat → Nat) (i : Nat)
    (values : Nat → α) : Nat → α :=
  let dt_local := dt (rind i / nq)
  let values := Function.update values i (-values i)
  if rind i = cind i then Function.update values i (values i + 1 / dt_local) else values

/-- The loop `for(uint i=0; i<nnz; i++){...}` of `Solver::solve` that turns the
Jacobian triples into the system matrix; only `values` is assigned. -/
def jac_transform {α : Type*} [Neg α] [Add α] [Div α] [One α]
    (nq : Nat) (dt : Nat → α) (tr : Triples α) : Triples α :=
  { tr with values := forLoop (jac_transform_body nq dt tr.rind tr.cind) tr.nnz tr.values }

/-! ## Arrays with an access record -/

/-- An array together with the positions read and the positions assigned so far,
oldest first.  The record has no influence on the stored values. -/
structure Traced (ι α : Type*) where
  mem : ι → α
  reads : List ι
  writes : List ι

/-- An array nobody has touched yet. -/
def Traced.start {ι α : Type*} (m : ι → α) : Traced ι α := ⟨m, [], []⟩

/-- The assignment `a[i] = v`. -/
def Traced.write {ι α : Type*} [DecidableEq ι] (a : Traced ι α) (i : ι) (v : α) :
    Traced ι α :=
  { a with mem := Function.update a.mem i v, writes := a.writes ++ [i] }

/-- The read `a[i]`: the value and the array with the read recorded. -/
def Traced.read {ι α : Type*} (a : Traced ι α) (i : ι) : α × Traced ι α :=
  (a.mem i, { a with reads := a.reads ++ [i] })

/-! ## `Solver::copy_from_solution`, `Solver::copy_to_solution` -/

/-- The array `mesh->solution->q[i][j][k]`. -/
abbrev Sol (α : Type*) := Nat × Nat × Nat → α

/-- The method `Solver::copy_from_solution`:
`q[i*njc*nq + j*nq + k] = mesh->solution->q[i][j][k]` for `i<nic`, `j<njc`, `k<nq`. -/
def copy_from_solution {α : Type*} (nic njc nq : Nat) (sol : Sol α)
    (q : Traced Nat α) : Traced Nat α :=
  forLoop (fun i q =>
    forLoop (fun j q =>
      forLoop (fun k q => q.write (i * njc * nq + j * nq + k) (sol (i, j, k))) nq q)
      njc q) nic q

/-- The method `Solver::copy_to_solution`:
`mesh->solution->q[i][j][k] = q[i*njc*nq + j*nq + k]` for `i<nic`, `j<njc`, `k<nq`. -/
def copy_to_solution {α : Type*} (nic njc nq : Nat) (q : Nat → α) (sol : Sol α) : Sol α :=
  forLoop (fun i sol =>
    forLoop (fun j sol =>
      forLoop (fun k sol => Function.update sol (i, j, k) (q (i * njc * nq + j * nq + k)))
        nq sol) njc sol) nic sol

/-! ## The PETSc objects used by `LinearSolverPetsc` -/

/-- A PETSc `Mat` created by `MatCreateSeqAIJ(comm, n, n, ...)`: `n` rows and columns and
the stored entries; `none` is a position with no stored entry.  The per-row capacity
`MAX_NNZ` is not modelled. -/
structure Mat (α : Type*) where
  n : Nat
  entry : Nat → Nat → Option α

/-- The matrix right after `MatCreateSeqAIJ`: no stored entry. -/
def Mat.empty {α : Type*} (n : Nat) : Mat α := ⟨n, fun _ _ => none⟩

/-- PETSc error code `PETSC_ERR_ARG_OUTOFRANGE`. -/
def PETSC_ERR_ARG_OUTOFRANGE : Nat := 63

/-- The PETSc call `MatSetValue(jac, row, col, v, INSERT_VALUES)`, after the PETSc manual:
a negative row or column is ignored, a row or column `≥ n` is rejected with
`PETSC_ERR_ARG_OUTOFRANGE`, otherwise the entry at `(row, col)` is replaced by `v` and
no other entry changes.  Returns the error code and the matrix. -/
def MatSetValue {α : Type*} (jac : Mat α) (row col : Int) (v : α) : Nat × Mat α :=
  if row < 0 ∨ col < 0 then (0, jac)
  else if (jac.n : Int) ≤ row ∨ (jac.n : Int) ≤ col then (PETSC_ERR_ARG_OUTOFRANGE, jac)
  else (0, { jac with entry := fun r c =>
      if r = row.toNat ∧ c = col.toNat then some v else jac.entry r c })

/-! ## `LinearSolverPetsc` -/

/-- The members of `LinearSolverPetsc` together with the mesh sizes it reads. -/
structure LinearSolverPetsc (α : Type*) where
  nic : Nat
  njc : Nat
  nq : Nat
  ntrans : Nat
  dq : Nat → α
  rhs : Nat → α
  jac : Mat α

/-- The constructor: vectors of `nvar = nic*njc*(nq+ntrans)` entries and an
`nvar × nvar` matrix. -/
def LinearSolverPetsc.create {α : Type*} [Zero α] (nic njc nq ntrans : Nat) :
    LinearSolverPetsc α :=
  let nvar := nic * njc * (nq + ntrans)
  { nic := nic, njc := njc, nq := nq, ntrans := ntrans,
    dq := fun _ => 0, rhs := fun _ => 0, jac := Mat.empty nvar }

/-- The method `LinearSolverPetsc::preallocate`: empty body. -/
def LinearSolverPetsc.preallocate {α : Type*} (ls : LinearSolverPetsc α) (_nnz : Nat) :
    LinearSolverPetsc α := ls

/-- The loop of `LinearSolverPetsc::set_jac` on the matrix: one `MatSetValue` per
triple, the returned error code dropped.  The conversions `row_idx = rind[i]` and
`col_idx = cind[i]` from `unsigned int` to `int` are taken without wrap-around, that is
for indices below `2^31`. -/
def set_jac_loop {α : Type*} (nnz : Nat) (rind cind : Nat → Nat) (values : Nat → α)
    (jac : Mat α) : Mat α :=
  forLoop (fun i jac =>
    let value_tmp := values i
    let row_idx : Int := rind i
    let col_idx : Int := cind i
    (MatSetValue jac row_idx col_idx value_tmp).2) nnz jac

/-- The method `LinearSolverPetsc::set_jac`: the loop, then `MatAssemblyBegin` and
`MatAssemblyEnd`, which change no entry. -/
def LinearSolverPetsc.set_jac {α : Type*} (ls : LinearSolverPetsc α) (nnz : Nat)
    (rind cind : Nat → Nat) (values : Nat → α) : LinearSolverPetsc α :=
  { ls with jac := set_jac_loop nnz rind cind values ls.jac }

/-- Errors of the backend interface named by the specification. -/
inductive BackendError where
  | InitializationError
  | AssemblyError
  | DimensionMismatch
  | ConvergenceFailure
  deriving DecidableEq, Repr

/-- What a caller of `set_jac` observes: the method is `void`, has no `throw` and never
looks at the code `MatSetValue` returns, so it always returns normally. -/
def LinearSolverPetsc.set_jac_outcome {α : Type*} (ls : LinearSolverPetsc α) (nnz : Nat)
    (rind cind : Nat → Nat) (values : Nat → α) :
    Except BackendError (LinearSolverPetsc α) :=
  Except.ok (ls.set_jac nnz rind cind values)

/-- The error codes the `MatSetValue` calls of `set_jac` return, in call order. -/
def set_jac_codes {α : Type*} (nnz : Nat) (rind cind : Nat → Nat) (values : Nat → α)
    (jac : Mat α) : List Nat :=
  (List.range nnz).map (fun i =>
    (MatSetValue (set_jac_loop i rind cind values jac)
      (rind i) (cind i) (values i)).1)

/-- Body of the loop of `LinearSolverPetsc::set_rhs`:
`value_tmp = val_rhs[i]; VecSetValue(rhs, i, value_tmp, INSERT_VALUES);`. -/
def set_rhs_body {α : Type*} (i : Nat) (s : LinearSolverPetsc α × Traced Nat α) :
    LinearSolverPetsc α × Traced Nat α :=
  let r := s.2.read i
  let value_tmp := r.1
  ({ s.1 with rhs := Function.update s.1.rhs i value_tmp }, r.2)

/-- The method `LinearSolverPetsc::set_rhs`: the loop body for `i < nic*njc*(nq+ntrans)`.
Returns the solver and the argument array with its reads recorded. -/
def LinearSolverPetsc.set_rhs {α : Type*} (ls : LinearSolverPetsc α)
    (val_rhs : Traced Nat α) : LinearSolverPetsc α × Traced Nat α :=
  forLoop set_rhs_body (ls.nic * ls.njc * (ls.nq + ls.ntrans)) (ls, val_rhs)

/-- The method `LinearSolverPetsc::solve_and_update`: `KSPSolve(ksp, rhs, dq)`, then
`q[i] = q[i] + dq_array[i]*under_relaxation` for `i < nic*njc*(nq+ntrans)`. -/
def LinearSolverPetsc.solve_and_update {α : Type*} [Add α] [Mul α]
    (KSPSolve : Mat α → (Nat → α) → (Nat → α)) (ls : LinearSolverPetsc α)
    (q : Traced Nat α) (under_relaxation : α) : LinearSolverPetsc α × Traced Nat α :=
  let ls := { ls with dq := KSPSolve ls.jac ls.rhs }
  let dq_array := ls.dq
  (ls, forLoop (fun i (q : Traced Nat α) =>
    let r := q.read i
    r.2.write i (r.1 + dq_array i * under_relaxation))
    (ls.nic * ls.njc * (ls.nq + ls.ntrans)) q)

/-! ## Doubles with NaN -/

/-- A value of type `double` as the ramps see it: a number or NaN. -/
inductive Double (α : Type*) where
  | num (x : α)
  | nan

/-- The comparison `a < b` of two doubles: false as soon as one of them is NaN. -/
def Double.lt {α : Type*} [LT α] : Double α → Double α → Prop
  | Double.num x, Double.num y => x < y
  | _, _ => False

/-- The comparison `a <= b` of two doubles: false as soon as one of them is NaN. -/
def Double.le {α : Type*} [LE α] : Double α → Double α → Prop
  | Double.num x, Double.num y => x ≤ y
  | _, _ => False

instance Double.instLT {α : Type*} [LT α] : LT (Double α) := ⟨Double.lt⟩

instance Double.instLE {α : Type*} [LE α] : LE (Double α) := ⟨Double.le⟩

instance Double.instDecidableLT {α : Type*} [LT α] [DecidableRel (fun (a b : α) => a < b)] :
    DecidableRel (fun (a b : Double α) => a < b)
  | Double.num x, Double.num y => inferInstanceAs (Decidable (x < y))
  | Double.num _, Double.nan => isFalse (fun h => h)
  | Double.nan, Double.num _ => isFalse (fun h => h)
  | Double.nan, Double.nan => isFalse (fun h => h)

instance Double.instOfScientific {α : Type*} [OfScientific α] : OfScientific (Double α) :=
  ⟨fun m s e => Double.num (OfScientific.ofScientific m s e)⟩

/-- The function `pow(x, y)` of `<cmath>` on doubles that may be NaN, after annex F of the
C standard: `pow(x, 0)` is 1 and `pow(1, y)` is 1 even when the other argument is NaN;
otherwise a NaN argument gives NaN; a negative base with an exponent that is not an integer
is a domain error and gives NaN; in every other case the value is `rpow x y`.
`is_integer` tells the integral exponents.  Infinite results (overflow, pole) are not
represented: there the value is whatever number `rpow` gives. -/
def cmath_pow {α : Type*} [LinearOrderedField α] (is_integer : α → Bool) (rpow : α → α → α) :
    Double α → Double α → Double α
  | Double.num x, Double.num y =>
    if y = 0 then Double.num 1
    else if x = 1 then Double.num 1
    else if x < 0 ∧ is_integer y = false then Double.nan
    else Double.num (rpow x y)
  | Double.nan, Double.num y => if y = 0 then Double.num 1 else Double.nan
  | Double.num x, Double.nan => if x = 1 then Double.num 1 else Double.nan
  | Double.nan, Double.nan => Double.nan

/-! ## Control parameter ramps -/

/-- The two assignments `CFL = pow(CFL, cfl_ramp_exponent); CFL = std::min(CFL, 1e6);`. -/
def cfl_ramp_step {α : Type*} [LT α] [DecidableRel (fun (a b : α) => a < b)] [OfScientific α]
    (pow : α → α → α) (cfl_ramp_exponent CFL : α) : α :=
  std_min (pow CFL cfl_ramp_exponent) 1e6

/-- The two assignments `UNDER_RELAXATION = pow(UNDER_RELAXATION, exponent);
UNDER_RELAXATION = std::min(UNDER_RELAXATION, 10.0);`. -/
def under_relaxation_ramp_step {α : Type*} [LT α] [DecidableRel (fun (a b : α) => a < b)]
    [OfScientific α] (pow : α → α → α)
    (under_relaxation_ramp_exponent UNDER_RELAXATION : α) : α :=
  std_min (pow UNDER_RELAXATION under_relaxation_ramp_exponent) 10.0

/-- The entries of `config->solver`, `config->io` and `config->freestream` that
`Solver` reads. -/
structure Config (α : Type*) where
  cfl : α
  under_relaxation : α
  cfl_ramp : Bool
  cfl_ramp_iteration : Nat
  cfl_ramp_exponent : α
  under_relaxation_ramp : Bool
  under_relaxation_ramp_iteration : Nat
  under_relaxation_ramp_exponent : α
  restart : Bool
  stdout_frequency : Nat
  fileout_frequency : Nat
  rho_inf : α
  u_inf : α
  v_inf : α
  p_inf : α

/-- The block `if(cfl_ramp){ if(counter > cfl_ramp_iteration){ ... } }` of `Solver::solve`;
`counter` is the value after `counter += 1`. -/
def ramp_cfl {α : Type*} [LT α] [DecidableRel (fun (a b : α) => a < b)] [OfScientific α]
    (pow : α → α → α) (config : Config α) (counter : Nat) (CFL : α) : α :=
  if config.cfl_ramp then
    if counter > config.cfl_ramp_iteration then
      cfl_ramp_step pow config.cfl_ramp_exponent CFL
    else CFL
  else CFL

/-- The block `if(under_relaxation_ramp){ if(counter > under_relaxation_ramp_iteration){ ... } }`
of `Solver::solve`. -/
def ramp_under_relaxation {α : Type*} [LT α] [DecidableRel (fun (a b : α) => a < b)]
    [OfScientific α] (pow : α → α → α)
    (config : Config α) (counter : Nat) (UNDER_RELAXATION : α) : α :=
  if config.under_relaxation_ramp then
    if counter > config.under_relaxation_ramp_iteration then
      under_relaxation_ramp_step pow config.under_relaxation_ramp_exponent UNDER_RELAXATION
    else UNDER_RELAXATION
  else UNDER_RELAXATION

/-! ## `Solver` -/

/-- The mesh data `Solver` reads: cell counts, variables per cell, grid spacings. -/
structure Mesh (α : Type*) where
  nic : Nat
  njc : Nat
  nq : Nat
  ntrans : Nat
  ds_eta : Nat → Nat → α
  ds_chi : Nat → Nat → α

/-- The collaborators of `Solver::solve` that are not part of the solver core, and the
library functions and constants it uses. -/
structure Env (α : Type*) where
  /-- The library function `sqrt`. -/
  sqrt : α → α
  /-- The library function `pow`. -/
  pow : α → α → α
  /-- The constant `GAMMA`. -/
  GAMMA : α
  /-- The call `equation->calc_residual(a_q_ravel, a_rhs_ravel)`: the new content of
  `a_rhs_ravel`. -/
  calc_residual : (Nat → α) → (Nat → α) → (Nat → α)
  /-- The call `sparse_jac(1, n, n, repeat, q, &nnz, &rind, &cind, &values, options)`. -/
  sparse_jac : (Nat → α) → Triples α
  /-- The call `KSPSolve(ksp, rhs, dq)`: the new content of `dq`. -/
  KSPSolve : Mat α → (Nat → α) → (Nat → α)
  /-- The call `iomanager->read_restart()`: the new content of `mesh->solution->q`. -/
  read_restart : Sol α → Sol α
  config : Config α
  mesh : Mesh α

/-- Operations of the linear backend, as `Solver::solve` invokes them. -/
inductive BackendCall where
  | preallocate
  | set_jac
  | set_rhs
  | solve_and_update
  deriving DecidableEq, Repr

/-- The members of `Solver` that `solve` uses, the locals `counter` and `l2norm` of
`solve`, and two records kept for the statements below: the backend operations invoked
so far (`calls`) and the arguments of `iomanager->write` so far (`written`). -/
structure Solver (α : Type*) where
  q : Nat → α
  rhs : Nat → α
  dt : Nat → α
  a_q_ravel : Nat → α
  a_rhs_ravel : Nat → α
  jacobian : Triples α
  CFL : α
  UNDER_RELAXATION : α
  solution_q : Sol α
  linearsolver : LinearSolverPetsc α
  counter : Nat
  l2norm : Nat → α
  calls : List BackendCall
  written : List Nat

/-- The constructor `Solver::Solver`, followed by the declarations that open `solve`
(`double l2norm[nq] = {1e10}; uint counter = 0;`).  The arrays are allocated without
initialisation; `junk` is their content. -/
def Solver.create {α : Type*} [LinearOrderedField α] (env : Env α) (junk : Nat → α)
    (solution_q : Sol α) : Solver α :=
  { q := junk, rhs := junk, dt := junk, a_q_ravel := junk, a_rhs_ravel := junk,
    jacobian := ⟨0, fun _ => 0, fun _ => 0, junk⟩,
    CFL := env.config.cfl,
    UNDER_RELAXATION := env.config.under_relaxation,
    solution_q := solution_q,
    linearsolver :=
      LinearSolverPetsc.create env.mesh.nic env.mesh.njc env.mesh.nq env.mesh.ntrans,
    counter := 0,
    l2norm := fun j => if j = 0 then 1e10 else 0,
    calls := [],
    written := [] }

/-- The method `Solver::initialize`: freestream values in every cell, then the restart
file when `config->io->restart` is set. -/
def Solver.initialize {α : Type*} [LinearOrderedField α] (env : Env α) (s : Solver α) :
    Solver α :=
  let nic := env.mesh.nic
  let njc := env.mesh.njc
  let sol := forLoop (fun i sol =>
    forLoop (fun j (sol : Sol α) =>
      let rho_inf := env.config.rho_inf
      let u_inf := env.config.u_inf
      let v_inf := env.config.v_inf
      let p_inf := env.config.p_inf
      let sol := Function.update sol (i, j, 0) rho_inf
      let sol := Function.update sol (i, j, 1) (rho_inf * u_inf)
      let sol := Function.update sol (i, j, 2) (rho_inf * v_inf)
      Function.update sol (i, j, 3)
        (p_inf / (env.GAMMA - 1.0) + 0.5 * rho_inf * (u_inf * u_inf + v_inf * v_inf)))
      njc sol) nic s.solution_q
  { s with solution_q := if env.config.restart then env.read_restart sol else sol }

/-- The loops of `Solver::solve` that compute `l2norm[j]` for `j < nq` from `rhs`. -/
def calc_l2norm {α : Type*} [LinearOrderedField α] (sqrt : α → α) (nic njc nq : Nat)
    (rhs : Nat → α) (l2norm : Nat → α) : Nat → α :=
  forLoop (fun j l2norm =>
    let l2norm := Function.update l2norm j 0
    let l2norm := forLoop (fun i l2norm =>
      Function.update l2norm j (l2norm j + rhs (i * nq + j) * rhs (i * nq + j)))
      (nic * njc) l2norm
    Function.update l2norm j (sqrt (l2norm j))) nq l2norm

/-- First part of the body of `while(1)` in `Solver::solve`: the state is handed to the
differentiation engine, the residual is evaluated and copied to `rhs`, and the
norms are computed. -/
def Solver.residual_phase {α : Type*} [LinearOrderedField α] (env : Env α) (s : Solver α) :
    Solver α :=
  let nic := env.mesh.nic
  let njc := env.mesh.njc
  let nq := env.mesh.nq
  let a_q_ravel := forLoop (fun i a =>
    forLoop (fun j a =>
      forLoop (fun k a =>
        Function.update a (i * njc * nq + j * nq + k) (s.q (i * njc * nq + j * nq + k)))
        nq a) njc a) nic s.a_q_ravel
  let a_rhs_ravel := env.calc_residual a_q_ravel s.a_rhs_ravel
  let rhs := forLoop (fun i r =>
    forLoop (fun j r =>
      forLoop (fun k r =>
        Function.update r (i * njc * nq + j * nq + k) (a_rhs_ravel (i * njc * nq + j * nq + k)))
        nq r) njc r) nic s.rhs
  { s with a_q_ravel := a_q_ravel, a_rhs_ravel := a_rhs_ravel, rhs := rhs,
           l2norm := calc_l2norm env.sqrt nic njc nq rhs s.l2norm }

/-- The test `l2norm[0] < 1e-8`. -/
def Solver.converged {α : Type*} [LinearOrderedField α] (s : Solver α) : Bool :=
  decide (s.l2norm 0 < 1e-8)

/-- The branch taken when the test succeeds: `copy_to_solution(); iomanager->write(counter);
break;`. -/
def Solver.finish {α : Type*} (env : Env α) (s : Solver α) : Solver α :=
  { s with
    solution_q := copy_to_solution env.mesh.nic env.mesh.njc env.mesh.nq s.q s.solution_q,
    written := s.written ++ [s.counter] }

/-- The state the rest of the body of `while(1)` leaves when the test fails and the pass
runs to its end: Jacobian, local time step, system matrix, backend calls, counter
increment, ramps and periodic output.  Timers, log lines, `t += 0` and the release of the
triples have no effect on the members kept here and are left out.  Whether the pass runs to
its end is decided by `Solver.update_phase`. -/
def Solver.update_state {α : Type*} [LinearOrderedField α] (env : Env α) (s : Solver α) :
    Solver α :=
  let nic := env.mesh.nic
  let njc := env.mesh.njc
  let nq := env.mesh.nq
  let jacobian := env.sparse_jac s.q
  let linearsolver :=
    if s.counter = 0 then s.linearsolver.preallocate jacobian.nnz else s.linearsolver
  let calls := if s.counter = 0 then s.calls ++ [BackendCall.preallocate] else s.calls
  let dt := calc_dt env.sqrt env.GAMMA s.CFL nic njc nq env.mesh.ds_eta env.mesh.ds_chi s.q s.dt
  let jacobian := jac_transform nq dt jacobian
  let linearsolver :=
    linearsolver.set_jac jacobian.nnz jacobian.rind jacobian.cind jacobian.values
  let linearsolver := (linearsolver.set_rhs (Traced.start s.rhs)).1
  let r := linearsolver.solve_and_update env.KSPSolve (Traced.start s.q) s.UNDER_RELAXATION
  let linearsolver := r.1
  let q := r.2.mem
  let calls := calls ++
    [BackendCall.set_jac, BackendCall.set_rhs, BackendCall.solve_and_update]
  let counter := s.counter + 1
  let CFL := ramp_cfl env.pow env.config counter s.CFL
  let UNDER_RELAXATION := ramp_under_relaxation env.pow env.config counter s.UNDER_RELAXATION
  let out := counter % env.config.fileout_frequency = 0
  { s with
    q := q, dt := dt, jacobian := jacobian, linearsolver := linearsolver, calls := calls,
    counter := counter, CFL := CFL, UNDER_RELAXATION := UNDER_RELAXATION,
    solution_q := if out then copy_to_solution nic njc nq q s.solution_q else s.solution_q,
    written := if out then s.written ++ [counter] else s.written }

/-- The rest of the body of `while(1)` when the test fails.  The two tests
`counter % config->io->stdout_frequency == 0` and
`counter % config->io->fileout_frequency == 0` are integer modulo operations on the
incremented counter: with a frequency of zero the process dies there (`none`); otherwise
the pass runs to its end. -/
def Solver.update_phase {α : Type*} [LinearOrderedField α] (env : Env α) (s : Solver α) :
    Option (Solver α) :=
  if env.config.stdout_frequency = 0 then none
  else if env.config.fileout_frequency = 0 then none
  else some (s.update_state env)

/-- How a run of the loop of `Solver::solve` stands after at most `fuel` passes. -/
inductive Outcome (σ : Type*) where
  /-- The loop was left through `break`, in this state. -/
  | broke (s : σ)
  /-- The process died on an integer modulo by zero. -/
  | died
  /-- The loop is still running after `fuel` passes. -/
  | running

/-- The loop `while(1){...}` of `Solver::solve`, run for at most `fuel` passes. -/
def Solver.loop {α : Type*} [LinearOrderedField α] (env : Env α) :
    Nat → Solver α → Outcome (Solver α)
  | 0, _ => Outcome.running
  | fuel + 1, s =>
    let s := s.residual_phase env
    if s.converged then Outcome.broke (s.finish env)
    else
      match s.update_phase env with
      | none => Outcome.died
      | some s => Solver.loop env fuel s

/-- The statements of `Solver::solve` before the loop: `initialize(); copy_from_solution();`. -/
def Solver.start {α : Type*} [LinearOrderedField α] (env : Env α) (s : Solver α) :
    Solver α :=
  let s := s.initialize env
  { s with q := (copy_from_solution env.mesh.nic env.mesh.njc env.mesh.nq s.solution_q
      (Traced.start s.q)).mem }

/-- The method `Solver::solve`, run for at most `fuel` passes of its loop. -/
def Solver.solve {α : Type*} [LinearOrderedField α] (env : Env α) (fuel : Nat)
    (s : Solver α) : Outcome (Solver α) :=
  Solver.loop env fuel (s.start env)

/-- The state at the beginning of pass `n` of the loop when no earlier pass took the
`break` and every earlier pass ran to its end. -/
def Solver.pass {α : Type*} [LinearOrderedField α] (env : Env α) (s : Solver α) :
    Nat → Solver α
  | 0 => s
  | n + 1 => ((Solver.pass env s n).residual_phase env).update_state env

/-! ## Concrete inputs used in the examples -/

/-- Triples used to exercise `jac_transform`: `(0,0,3)` and `(1,0,3)`. -/
def triples_example : Triples ℚ := ⟨2, fun k => k, fun _ => 0, fun _ => 3⟩

/-- A Jacobian with the single entry `(0,1,5)`: row 0 has no diagonal entry. -/
def triples_offdiag : Triples ℚ := ⟨1, fun _ => 0, fun _ => 1, fun _ => 5⟩

/-- A backend for one cell with two unknowns whose matrix holds the entry `(0,1) = 7`,
as left by a previous `set_jac` with the single triple `(0,1,7)`. -/
def backend_after_first : LinearSolverPetsc ℚ :=
  (LinearSolverPetsc.create 1 1 2 0).set_jac 1 (fun _ => 0) (fun _ => 1) (fun _ => 7)

/-- A backend for one cell with one unknown, so `nvar = 1`. -/
def backend_one : LinearSolverPetsc ℚ := LinearSolverPetsc.create 1 1 1 0

/-- A configuration with both ramps enabled from the first iteration on. -/
def config_example {α : Type*} [LinearOrderedField α] (cfl under_relaxation exponent : α) :
    Config α :=
  { cfl := cfl, under_relaxation := under_relaxation,
    cfl_ramp := true, cfl_ramp_iteration := 0, cfl_ramp_exponent := exponent,
    under_relaxation_ramp := true, under_relaxation_ramp_iteration := 0,
    under_relaxation_ramp_exponent := exponent,
    restart := false, stdout_frequency := 1, fileout_frequency := 1,
    rho_inf := 1, u_inf := 0, v_inf := 0, p_inf := 1 }

/-- A mesh of 2x2 cells with four variables per cell and unit spacings, a residual that
vanishes identically, and a differentiation engine that returns no triple. -/
def env_example {α : Type*} [LinearOrderedField α] (sqrt : α → α) (pow : α → α → α)
    (config : Config α) : Env α :=
  { sqrt := sqrt, pow := pow, GAMMA := 1.4,
    calc_residual := fun _ _ _ => 0,
    sparse_jac := fun _ => ⟨0, fun _ => 0, fun _ => 0, fun _ => 0⟩,
    KSPSolve := fun _ rhs => rhs,
    read_restart := fun sol => sol,
    config := config,
    mesh := { nic := 2, njc := 2, nq := 4, ntrans := 0,
              ds_eta := fun _ _ => 1, ds_chi := fun _ _ => 1 } }

/-- A state with `rho = 1`, `u = v = 0`, `rhoE = 5/2` in its first cell. -/
def q_example {α : Type*} [LinearOrderedField α] : Nat → α :=
  fun k => if k = 0 then 1 else if k = 3 then 5 / 2 else 0

/-- A backend for one cell with four variables and one transported scalar
(`nq = 4`, `ntrans = 1`); the driver then allocates `q` and `rhs` with four entries. -/
def backend_trans : LinearSolverPetsc ℚ := LinearSolverPetsc.create 1 1 4 1

/-- One cell whose density residual is `q[0] - 2`, with a differentiation engine that
returns the single triple `(0,0,1)` and a linear solve that returns `dq = -rhs`: starting
from `rho_inf = 1`, the first update brings the density residual to zero.  Both output
frequencies are `frequency`. -/
def env_decay {α : Type*} [LinearOrderedField α] (sqrt : α → α) (pow : α → α → α)
    (frequency : Nat) : Env α :=
  { sqrt := sqrt, pow := pow, GAMMA := 1.4,
    calc_residual := fun a_q _ x => if x = 0 then a_q 0 - 2 else 0,
    sparse_jac := fun _ => ⟨1, fun _ => 0, fun _ => 0, fun _ => 1⟩,
    KSPSolve := fun _ rhs i => -rhs i,
    read_restart := fun sol => sol,
    config := { config_example 1 1 1 with
      stdout_frequency := frequency, fileout_frequency := frequency },
    mesh := { nic := 1, njc := 1, nq := 4, ntrans := 0,
              ds_eta := fun _ _ => 1, ds_chi := fun _ _ => 1 } }

/-! # Theorems -/

/-! ## Generic facts about counted loops -/

theorem forLoop_frame {ι α : Type*} (body : Nat → (ι → α) → (ι → α)) (P : Nat → ι → Prop)
    (x : ι) : ∀ (n : Nat), (∀ i, i < n → ∀ m, ¬ P i x → body i m x = m x) →
    (∀ i, i < n → ¬ P i x) → ∀ m, forLoop body n m x = m x := by
  intro n
  induction n with
  | zero => intro _ _ m; rfl
  | succ n ih =>
    intro h hx m
    show body n (forLoop body n m) x = m x
    rw [h n (Nat.lt_succ_self n) _ (hx n (Nat.lt_succ_self n))]
    exact ih (fun i hi => h i (Nat.lt_succ_of_lt hi)) (fun i hi => hx i (Nat.lt_succ_of_lt hi)) m

theorem forLoop_write {ι α : Type*} (body : Nat → (ι → α) → (ι → α)) (P : Nat → ι → Prop)
    (G : ι → α) (x : ι) : ∀ (n : Nat), (∀ i, i < n → ∀ m, P i x → body i m x = G x) →
    (∀ i, i < n → ∀ m, ¬ P i x → body i m x = m x) →
    (∃ i, i < n ∧ P i x) → ∀ m, forLoop body n m x = G x := by
  intro n
  induction n with
  | zero => intro _ _ hx; obtain ⟨i, hi, _⟩ := hx; exact absurd hi (Nat.not_lt_zero i)
  | succ n ih =>
    intro hw hf hx m
    show body n (forLoop body n m) x = G x
    by_cases hP : P n x
    · exact hw n (Nat.lt_succ_self n) _ hP
    · rw [hf n (Nat.lt_succ_self n) _ hP]
      obtain ⟨i, hi, hPi⟩ := hx
      have hne : i ≠ n := fun e => hP (e ▸ hPi)
      exact ih (fun i hi => hw i (Nat.lt_succ_of_lt hi)) (fun i hi => hf i (Nat.lt_succ_of_lt hi))
        ⟨i, lt_of_le_of_ne (Nat.lt_succ_iff.mp hi) hne, hPi⟩ m

theorem forLoop_pointwise {α : Type*} (f : Nat → α → α) (body : Nat → (Nat → α) → (Nat → α))
    (hb : ∀ i m, body i m = Function.update m i (f i (m i))) (n : Nat) (m : Nat → α)
    (x : Nat) : forLoop body n m x = if x < n then f x (m x) else m x := by
  induction n with
  | zero => simp [forLoop]
  | succ n ih =>
    show body n (forLoop body n m) x = _
    rw [hb]
    by_cases hx : x = n
    · subst hx
      have hself : forLoop body x m x = m x := by
        have h := ih
        simp only [lt_irrefl, if_false] at h
        exact h
      simp [hself]
    · rw [Function.update_noteq hx, ih]
      have : x < n + 1 ↔ x < n := by omega
      simp only [this]

theorem jac_transform_body_eq {α : Type*} [Neg α] [Add α] [Div α] [One α]
    (nq : Nat) (dt : Nat → α) (rind cind : Nat → Nat) (i : Nat) (values : Nat → α) :
    jac_transform_body nq dt rind cind i values =
      Function.update values i
        ((fun k v => if rind k = cind k then -v + 1 / dt (rind k / nq) else -v) i (values i)) := by
  unfold jac_transform_body
  by_cases h : rind i = cind i
  · simp [h, Function.update_idem]
  · simp [h]

theorem jac_transform_values {α : Type*} [Neg α] [Add α] [Div α] [One α]
    (nq : Nat) (dt : Nat → α) (tr : Triples α) (x : Nat) :
    (jac_transform nq dt tr).values x =
      if x < tr.nnz then
        (if tr.rind x = tr.cind x then -tr.values x + 1 / dt (tr.rind x / nq)
         else -tr.values x)
      else tr.values x :=
  forLoop_pointwise
    (fun k v => if tr.rind k = tr.cind k then -v + 1 / dt (tr.rind k / nq) else -v)
    (jac_transform_body nq dt tr.rind tr.cind)
    (jac_transform_body_eq nq dt tr.rind tr.cind) tr.nnz tr.values x

theorem flat_div_nq (njc nq i j v : Nat) (hv : v < nq) :
    (i * njc * nq + j * nq + v) / nq = i * njc + j := by
  have hnq : 0 < nq := by omega
  have h : i * njc * nq + j * nq + v = v + nq * (i * njc + j) := by ring
  rw [h, Nat.add_mul_div_left _ _ hnq, Nat.div_eq_of_lt hv, Nat.zero_add]

/-! ## C1 -/

/-- Claim C1.  The Jacobian-to-system-matrix loop of `Solver::solve` leaves `nnz`, `rind`
and `cind` as they are; entry `k < nnz` becomes `-values[k]` when `rind[k] != cind[k]` and
`-values[k] + 1/dt[rind[k]/nq]` when `rind[k] == cind[k]`; entries at `k ≥ nnz` are not
assigned; and for a row `i*njc*nq + j*nq + v` with `v < nq` the position `rind[k]/nq`
read from `dt` is `i*njc + j`, where `calc_dt` stores the step of cell `(i, j)`. -/
theorem jac_transform_spec {α : Type*} [Neg α] [Add α] [Div α] [One α]
    (nic njc nq : Nat) (dt : Nat → α) (tr : Triples α)
    (hrow : ∀ k, k < tr.nnz → tr.rind k < nic * njc * nq) :
    (jac_transform nq dt tr).nnz = tr.nnz ∧
    (jac_transform nq dt tr).rind = tr.rind ∧
    (jac_transform nq dt tr).cind = tr.cind ∧
    (∀ k, k < tr.nnz → tr.rind k ≠ tr.cind k →
      (jac_transform nq dt tr).values k = -tr.values k) ∧
    (∀ k, k < tr.nnz → tr.rind k = tr.cind k →
      (jac_transform nq dt tr).values k = -tr.values k + 1 / dt (tr.rind k / nq)) ∧
    (∀ k, tr.nnz ≤ k → (jac_transform nq dt tr).values k = tr.values k) ∧
    (∀ k, k < tr.nnz → tr.rind k / nq < nic * njc) ∧
    (∀ k i j v, tr.rind k = i * njc * nq + j * nq + v → i < nic → j < njc → v < nq →
      tr.rind k / nq = i * njc + j) := by
  have hval := jac_transform_values nq dt tr
  refine ⟨rfl, rfl, rfl, ?_, ?_, ?_, ?_, ?_⟩
  · intro k hk hne
    rw [hval, if_pos hk, if_neg hne]
  · intro k hk he
    rw [hval, if_pos hk, if_pos he]
  · intro k hk
    rw [hval, if_neg (by omega)]
  · intro k hk
    have h := hrow k hk
    rcases Nat.eq_zero_or_pos nq with h0 | hpos
    · subst h0; simp at h
    · exact (Nat.div_lt_iff_lt_mul hpos).mpr h
  · intro k i j v hk _ _ hv
    rw [hk, flat_div_nq njc nq i j v hv]

theorem jac_transform_spec_witness :
    (jac_transform 2 (fun _ => (2 : ℚ)) triples_example).values 0 = -3 + 1 / 2 ∧
    (jac_transform 2 (fun _ => (2 : ℚ)) triples_example).values 1 = -3 := by
  have h := jac_transform_spec 1 1 2 (fun _ => (2 : ℚ)) triples_example
    (by intro k hk; simp only [triples_example] at hk ⊢; omega)
  exact ⟨h.2.2.2.2.1 0 (by decide) rfl, h.2.2.2.1 1 (by decide) (by decide)⟩

/-! ## The matrix built by `set_jac` -/

theorem MatSetValue_n {α : Type*} (jac : Mat α) (row col : Nat) (v : α) :
    (MatSetValue jac row col v).2.n = jac.n := by
  unfold MatSetValue
  split_ifs <;> rfl

theorem MatSetValue_entry {α : Type*} (jac : Mat α) (row col : Nat) (v : α) (r c : Nat) :
    (MatSetValue jac row col v).2.entry r c =
      if row < jac.n ∧ col < jac.n ∧ r = row ∧ c = col then some v else jac.entry r c := by
  unfold MatSetValue
  have h1 : ¬ ((row : Int) < 0 ∨ (col : Int) < 0) := by omega
  rw [if_neg h1]
  by_cases h2 : (jac.n : Int) ≤ row ∨ (jac.n : Int) ≤ col
  · rw [if_pos h2]
    have : ¬ (row < jac.n ∧ col < jac.n ∧ r = row ∧ c = col) := by omega
    rw [if_neg this]
  · rw [if_neg h2]
    have hiff : (r = (row : Int).toNat ∧ c = (col : Int).toNat) ↔
        (row < jac.n ∧ col < jac.n ∧ r = row ∧ c = col) := by
      simp only [Int.toNat_ofNat]
      omega
    simp only [hiff]

theorem MatSetValue_code {α : Type*} (jac : Mat α) (row col : Nat) (v : α) :
    (MatSetValue jac row col v).1 =
      if row < jac.n ∧ col < jac.n then 0 else PETSC_ERR_ARG_OUTOFRANGE := by
  unfold MatSetValue
  have h1 : ¬ ((row : Int) < 0 ∨ (col : Int) < 0) := by omega
  rw [if_neg h1]
  by_cases h2 : (jac.n : Int) ≤ row ∨ (jac.n : Int) ≤ col
  · rw [if_pos h2, if_neg (by omega)]
  · rw [if_neg h2, if_pos (by omega)]

theorem set_jac_loop_succ {α : Type*} (nnz : Nat) (rind cind : Nat → Nat) (values : Nat → α)
    (jac : Mat α) :
    set_jac_loop (nnz + 1) rind cind values jac =
      (MatSetValue (set_jac_loop nnz rind cind values jac) (rind nnz) (cind nnz)
        (values nnz)).2 := rfl

theorem set_jac_loop_n {α : Type*} (nnz : Nat) (rind cind : Nat → Nat) (values : Nat → α)
    (jac : Mat α) : (set_jac_loop nnz rind cind values jac).n = jac.n := by
  induction nnz with
  | zero => rfl
  | succ n ih => rw [set_jac_loop_succ, MatSetValue_n, ih]

/-- A position no triple names keeps the entry the matrix had before `set_jac`. -/
theorem set_jac_loop_frame {α : Type*} (nnz : Nat) (rind cind : Nat → Nat)
    (values : Nat → α) (jac : Mat α) (r c : Nat)
    (h : ∀ k, k < nnz → ¬ (rind k = r ∧ cind k = c)) :
    (set_jac_loop nnz rind cind values jac).entry r c = jac.entry r c := by
  induction nnz with
  | zero => rfl
  | succ n ih =>
    rw [set_jac_loop_succ, MatSetValue_entry]
    have hn := h n (Nat.lt_succ_self n)
    have : ¬ (rind n < (set_jac_loop n rind cind values jac).n ∧
        cind n < (set_jac_loop n rind cind values jac).n ∧ r = rind n ∧ c = cind n) :=
      fun hh => hn ⟨hh.2.2.1.symm, hh.2.2.2.symm⟩
    rw [if_neg this]
    exact ih (fun k hk => h k (Nat.lt_succ_of_lt hk))

/-- A position named by an in-range triple holds the value of the last triple naming it. -/
theorem set_jac_loop_last {α : Type*} (nnz : Nat) (rind cind : Nat → Nat)
    (values : Nat → α) (jac : Mat α) (k : Nat) (hk : k < nnz)
    (hr : rind k < jac.n) (hc : cind k < jac.n)
    (hlast : ∀ k2, k < k2 → k2 < nnz → ¬ (rind k2 = rind k ∧ cind k2 = cind k)) :
    (set_jac_loop nnz rind cind values jac).entry (rind k) (cind k) = some (values k) := by
  induction nnz with
  | zero => exact absurd hk (Nat.not_lt_zero k)
  | succ n ih =>
    rw [set_jac_loop_succ, MatSetValue_entry, set_jac_loop_n]
    by_cases hkn : k = n
    · subst hkn
      rw [if_pos ⟨hr, hc, rfl, rfl⟩]
    · have hk2 : k < n := by omega
      have hn := hlast n hk2 (Nat.lt_succ_self n)
      have : ¬ (rind n < jac.n ∧ cind n < jac.n ∧ rind k = rind n ∧ cind k = cind n) :=
        fun hh => hn ⟨hh.2.2.1.symm, hh.2.2.2.symm⟩
      rw [if_neg this]
      exact ih hk2 (fun k2 h1 h2 => hlast k2 h1 (Nat.lt_succ_of_lt h2))

/-! ## C2 -/

/-- Claim C2, refuted as stated.  For the Jacobian with the single triple `(0,1,5)` the
transform hands the backend no triple at `(0,0)`, and the matrix `set_jac` builds from
it has no stored entry at `(0,0)`: the diagonal entry `0 + 1/dt[0]` is not created. -/
theorem diagonal_not_created :
    (¬ ∃ k, k < (jac_transform 1 (fun _ => (2 : ℚ)) triples_offdiag).nnz ∧
      (jac_transform 1 (fun _ => (2 : ℚ)) triples_offdiag).rind k = 0 ∧
      (jac_transform 1 (fun _ => (2 : ℚ)) triples_offdiag).cind k = 0) ∧
    ((LinearSolverPetsc.create 2 1 1 0 : LinearSolverPetsc ℚ).set_jac
      (jac_transform 1 (fun _ => (2 : ℚ)) triples_offdiag).nnz
      (jac_transform 1 (fun _ => (2 : ℚ)) triples_offdiag).rind
      (jac_transform 1 (fun _ => (2 : ℚ)) triples_offdiag).cind
      (jac_transform 1 (fun _ => (2 : ℚ)) triples_offdiag).values).jac.entry 0 0 = none ∧
    ((LinearSolverPetsc.create 2 1 1 0 : LinearSolverPetsc ℚ).set_jac
      (jac_transform 1 (fun _ => (2 : ℚ)) triples_offdiag).nnz
      (jac_transform 1 (fun _ => (2 : ℚ)) triples_offdiag).rind
      (jac_transform 1 (fun _ => (2 : ℚ)) triples_offdiag).cind
      (jac_transform 1 (fun _ => (2 : ℚ)) triples_offdiag).values).jac.entry 0 0
      ≠ some (-0 + 1 / 2) := by
  have hentry : ((LinearSolverPetsc.create 2 1 1 0 : LinearSolverPetsc ℚ).set_jac
      (jac_transform 1 (fun _ => (2 : ℚ)) triples_offdiag).nnz
      (jac_transform 1 (fun _ => (2 : ℚ)) triples_offdiag).rind
      (jac_transform 1 (fun _ => (2 : ℚ)) triples_offdiag).cind
      (jac_transform 1 (fun _ => (2 : ℚ)) triples_offdiag).values).jac.entry 0 0 = none := by
    show (set_jac_loop 1 (fun _ => 0) (fun _ => 1) _ (Mat.empty _)).entry 0 0 = none
    rw [set_jac_loop_frame]
    · rfl
    · intro k _ h
      exact absurd h.2 (by decide)
  refine ⟨?_, hentry, ?_⟩
  · rintro ⟨k, _, _, hc⟩
    have hc2 : (1 : Nat) = 0 := hc
    exact absurd hc2 (by decide)
  · rw [hentry]
    exact fun h => Option.noConfusion h

/-- Claim C2, amended.  Every triple `k < nnz` on the diagonal (`rind[k] == cind[k]`) is
handed to the backend with the value `-values[k] + 1/dt[rind[k]/nq]`, and when that triple
is in range and the last one naming its position the matrix entry after `set_jac` is that
value.  No triple is created: for a row `r` without an input triple at `(r,r)` the list
handed to the backend has none, and `set_jac` leaves the matrix entry at `(r,r)` as it
was (absent, for a matrix that had no entries). -/
theorem jac_transform_diagonal {α : Type*} [Neg α] [Add α] [Div α] [One α]
    (nq : Nat) (dt : Nat → α) (tr : Triples α) (jac : Mat α) :
    (∀ k, k < tr.nnz → tr.rind k = tr.cind k →
      (jac_transform nq dt tr).values k = -tr.values k + 1 / dt (tr.rind k / nq)) ∧
    (∀ k, k < tr.nnz → tr.rind k = tr.cind k → tr.rind k < jac.n →
      (∀ k2, k < k2 → k2 < tr.nnz → ¬ (tr.rind k2 = tr.rind k ∧ tr.cind k2 = tr.rind k)) →
      (set_jac_loop (jac_transform nq dt tr).nnz (jac_transform nq dt tr).rind
        (jac_transform nq dt tr).cind (jac_transform nq dt tr).values jac).entry
          (tr.rind k) (tr.rind k) = some (-tr.values k + 1 / dt (tr.rind k / nq))) ∧
    (∀ r, (∀ k, k < tr.nnz → ¬ (tr.rind k = r ∧ tr.cind k = r)) →
      (∀ k, k < (jac_transform nq dt tr).nnz →
        ¬ ((jac_transform nq dt tr).rind k = r ∧ (jac_transform nq dt tr).cind k = r)) ∧
      (set_jac_loop (jac_transform nq dt tr).nnz (jac_transform nq dt tr).rind
        (jac_transform nq dt tr).cind (jac_transform nq dt tr).values jac).entry r r
          = jac.entry r r ∧
      (set_jac_loop (jac_transform nq dt tr).nnz (jac_transform nq dt tr).rind
        (jac_transform nq dt tr).cind (jac_transform nq dt tr).values
        (Mat.empty jac.n)).entry r r = none) := by
  have hdiag : ∀ k, k < tr.nnz → tr.rind k = tr.cind k →
      (jac_transform nq dt tr).values k = -tr.values k + 1 / dt (tr.rind k / nq) := by
    intro k hk he
    rw [jac_transform_values, if_pos hk, if_pos he]
  refine ⟨hdiag, ?_, ?_⟩
  · intro k hk he hr hlast
    have h := set_jac_loop_last tr.nnz tr.rind tr.cind (jac_transform nq dt tr).values jac k hk
      hr (he ▸ hr) (fun k2 h1 h2 => by rw [← he]; exact hlast k2 h1 h2)
    rw [← he] at h
    rw [← hdiag k hk he]
    exact h
  · intro r hr
    exact ⟨hr, set_jac_loop_frame tr.nnz tr.rind tr.cind _ jac r r hr,
      set_jac_loop_frame tr.nnz tr.rind tr.cind _ (Mat.empty jac.n) r r hr⟩

theorem jac_transform_diagonal_witness :
    (jac_transform 2 (fun _ => (2 : ℚ)) triples_example).values 0 = -3 + 1 / 2 ∧
    (set_jac_loop 2 triples_example.rind triples_example.cind
      (jac_transform 2 (fun _ => (2 : ℚ)) triples_example).values (Mat.empty 2)).entry 1 1
        = none := by
  have h := jac_transform_diagonal 2 (fun _ => (2 : ℚ)) triples_example (Mat.empty 2)
  refine ⟨h.1 0 (by decide) rfl, (h.2.2 1 ?_).2.2⟩
  intro k _ hk
  exact absurd hk.2 (by simp [triples_example])

/-! ## C7 -/

/-- Claim C7, refuted as stated.  A matrix that holds `(0,1) = 7` from an earlier `set_jac`
still holds it after `set_jac` with the single triple `(0,0,1)`, although no triple of
the second call names `(0,1)`. -/
theorem set_jac_keeps_old_entry :
    backend_after_first.jac.entry 0 1 = some 7 ∧
    (backend_after_first.set_jac 1 (fun _ => 0) (fun _ => 0) (fun _ => 1)).jac.entry 0 1
      = some 7 ∧
    (backend_after_first.set_jac 1 (fun _ => 0) (fun _ => 0) (fun _ => 1)).jac.entry 0 1
      ≠ none := by
  have h1 : backend_after_first.jac.entry 0 1 = some 7 := by
    show (set_jac_loop 1 (fun _ => 0) (fun _ => 1) (fun _ => (7 : ℚ)) (Mat.empty 2)).entry
      ((fun _ => 0) 0) ((fun _ => 1) 0) = some ((fun _ => (7 : ℚ)) 0)
    exact set_jac_loop_last 1 (fun _ => 0) (fun _ => 1) (fun _ => (7 : ℚ)) (Mat.empty 2) 0
      Nat.zero_lt_one Nat.zero_lt_two Nat.one_lt_two (fun k2 h1 h2 => by omega)
  have h2 : (backend_after_first.set_jac 1 (fun _ => 0) (fun _ => 0)
      (fun _ => 1)).jac.entry 0 1 = some 7 := by
    show (set_jac_loop 1 (fun _ => 0) (fun _ => 0) (fun _ => (1 : ℚ))
      backend_after_first.jac).entry 0 1 = some 7
    rw [set_jac_loop_frame, h1]
    intro k _ h
    exact absurd h.2 (by decide)
  refine ⟨h1, h2, ?_⟩
  rw [h2]
  exact fun h => Option.noConfusion h

/-- Claim C7, amended.  After `set_jac` the matrix entry at a position named by a triple
with indices in `[0, nvar)` is the value of the last triple naming that position, and the
entry at every position named by no triple is what the matrix held before the call; it
is absent when the matrix had no entries before the call. -/
theorem set_jac_entries {α : Type*} (ls : LinearSolverPetsc α) (nnz : Nat)
    (rind cind : Nat → Nat) (values : Nat → α) :
    (∀ k, k < nnz → rind k < ls.jac.n → cind k < ls.jac.n →
      (∀ k2, k < k2 → k2 < nnz → ¬ (rind k2 = rind k ∧ cind k2 = cind k)) →
      (ls.set_jac nnz rind cind values).jac.entry (rind k) (cind k) = some (values k)) ∧
    (∀ r c, (∀ k, k < nnz → ¬ (rind k = r ∧ cind k = c)) →
      (ls.set_jac nnz rind cind values).jac.entry r c = ls.jac.entry r c) ∧
    (ls.jac = Mat.empty ls.jac.n → ∀ r c, (∀ k, k < nnz → ¬ (rind k = r ∧ cind k = c)) →
      (ls.set_jac nnz rind cind values).jac.entry r c = none) := by
  refine ⟨?_, ?_, ?_⟩
  · intro k hk hr hc hlast
    exact set_jac_loop_last nnz rind cind values ls.jac k hk hr hc hlast
  · intro r c h
    exact set_jac_loop_frame nnz rind cind values ls.jac r c h
  · intro hempty r c h
    have := set_jac_loop_frame nnz rind cind values ls.jac r c h
    show (set_jac_loop nnz rind cind values ls.jac).entry r c = none
    rw [this, hempty]
    rfl

theorem set_jac_entries_witness :
    (backend_after_first.set_jac 1 (fun _ => 0) (fun _ => 0) (fun _ => 1)).jac.entry 0 0
      = some 1 ∧
    (backend_after_first.set_jac 1 (fun _ => 0) (fun _ => 0) (fun _ => 1)).jac.entry 1 1
      = backend_after_first.jac.entry 1 1 := by
  have h := set_jac_entries backend_after_first 1 (fun _ => 0) (fun _ => 0) (fun _ => (1 : ℚ))
  refine ⟨h.1 0 (by decide) ?_ ?_ ?_, h.2.1 1 1 ?_⟩
  · show 0 < (set_jac_loop 1 _ _ _ (Mat.empty 2)).n
    rw [set_jac_loop_n]
    exact Nat.zero_lt_two
  · show 0 < (set_jac_loop 1 _ _ _ (Mat.empty 2)).n
    rw [set_jac_loop_n]
    exact Nat.zero_lt_two
  · intro k2 h1 h2
    omega
  · intro k _ hk
    exact absurd hk.1 (by decide)

/-! ## C8 -/

/-- Claim C8, refuted as stated.  With `nvar = 1` and the single triple `(5,0,1)`, whose
row lies outside `[0, nvar)`, `set_jac` does not report `AssemblyError`: it returns
normally, the code `PETSC_ERR_ARG_OUTOFRANGE` of the `MatSetValue` call is dropped, and the
matrix is left without the entry. -/
theorem set_jac_no_assembly_error :
    backend_one.set_jac_outcome 1 (fun _ => 5) (fun _ => 0) (fun _ => 1)
      ≠ Except.error BackendError.AssemblyError ∧
    set_jac_codes 1 (fun _ => 5) (fun _ => 0) (fun _ => (1 : ℚ)) backend_one.jac
      = [PETSC_ERR_ARG_OUTOFRANGE] ∧
    (∀ r c, (backend_one.set_jac 1 (fun _ => 5) (fun _ => 0) (fun _ => 1)).jac.entry r c
      = none) := by
  refine ⟨?_, ?_, ?_⟩
  · intro h
    simp [LinearSolverPetsc.set_jac_outcome] at h
  · show [(MatSetValue (Mat.empty 1 : Mat ℚ) ((5 : Nat) : Int) ((0 : Nat) : Int) 1).1] = _
    rw [MatSetValue_code]
    rfl
  · intro r c
    show (MatSetValue (Mat.empty 1 : Mat ℚ) ((5 : Nat) : Int) ((0 : Nat) : Int) 1).2.entry r c
      = none
    rw [MatSetValue_entry]
    have : ¬ (5 < (Mat.empty 1 : Mat ℚ).n ∧ 0 < (Mat.empty 1 : Mat ℚ).n ∧ r = 5 ∧ c = 0) := by
      intro h
      exact absurd h.1 (by decide)
    rw [if_neg this]
    rfl

/-- Claim C8, amended.  `set_jac` checks no index and reports no error: for every list of
triples, in range or not, it returns normally with the matrix its `MatSetValue` calls
leave; when every index is in `[0, nvar)` every `MatSetValue` call returns code 0. -/
theorem set_jac_outcome_ok {α : Type*} (ls : LinearSolverPetsc α) (nnz : Nat)
    (rind cind : Nat → Nat) (values : Nat → α) :
    ls.set_jac_outcome nnz rind cind values = Except.ok (ls.set_jac nnz rind cind values) ∧
    ((∀ k, k < nnz → rind k < ls.jac.n ∧ cind k < ls.jac.n) →
      ∀ code, code ∈ set_jac_codes nnz rind cind values ls.jac → code = 0) := by
  refine ⟨rfl, ?_⟩
  intro hin code hcode
  unfold set_jac_codes at hcode
  rw [List.mem_map] at hcode
  obtain ⟨i, hi, rfl⟩ := hcode
  rw [List.mem_range] at hi
  rw [MatSetValue_code, set_jac_loop_n, if_pos (hin i hi)]

theorem set_jac_outcome_ok_witness :
    backend_one.set_jac_outcome 1 (fun _ => 0) (fun _ => 0) (fun _ => 1)
      = Except.ok (backend_one.set_jac 1 (fun _ => 0) (fun _ => 0) (fun _ => 1)) ∧
    (∀ code, code ∈ set_jac_codes 1 (fun _ => 0) (fun _ => 0) (fun _ => (1 : ℚ))
      backend_one.jac → code = 0) := by
  have h := set_jac_outcome_ok backend_one 1 (fun _ => 0) (fun _ => 0) (fun _ => (1 : ℚ))
  refine ⟨h.1, h.2 ?_⟩
  intro k _
  exact ⟨Nat.zero_lt_one, Nat.zero_lt_one⟩

/-! ## C4 -/

theorem std_min_le_right {α : Type*} [LinearOrder α] (a b : α) : std_min a b ≤ b := by
  unfold std_min
  split_ifs with h
  · exact le_refl b
  · exact not_lt.mp h

theorem std_min_eq_min {α : Type*} [LinearOrder α] (a b : α) : std_min a b = min a b := by
  unfold std_min
  split_ifs with h
  · exact (min_eq_right (le_of_lt h)).symm
  · exact (min_eq_left (not_lt.mp h)).symm

theorem Double.num_lt_num {α : Type*} [LT α] (x y : α) :
    (Double.num x < Double.num y) ↔ x < y := Iff.rfl

theorem Double.num_le_num {α : Type*} [LE α] (x y : α) :
    (Double.num x ≤ Double.num y) ↔ x ≤ y := Iff.rfl

theorem Double.not_lt_nan {α : Type*} [LT α] (a : Double α) : ¬ (a < Double.nan) := by
  cases a <;> exact fun h => h

theorem Double.not_nan_le {α : Type*} [LE α] (a : Double α) : ¬ (Double.nan ≤ a) := by
  cases a <;> exact fun h => h

theorem std_min_num_num {α : Type*} [LinearOrder α] (x c : α) :
    std_min (Double.num x) (Double.num c) = Double.num (std_min x c) := by
  unfold std_min
  by_cases h : c < x
  · rw [if_pos ((Double.num_lt_num c x).mpr h), if_pos h]
  · rw [if_neg (fun hh => h ((Double.num_lt_num c x).mp hh)), if_neg h]

theorem std_min_nan {α : Type*} [LinearOrder α] (c : Double α) :
    std_min Double.nan c = Double.nan := by
  unfold std_min
  rw [if_neg (Double.not_lt_nan c)]

/-- What `std::min(p, c)` is for a ceiling `c` that is a number: never above `c`, NaN
exactly when `p` is NaN, and `<= c` otherwise. -/
theorem std_min_ceiling {α : Type*} [LinearOrder α] (p : Double α) (c : α) :
    ¬ (Double.num c < std_min p (Double.num c)) ∧
    (std_min p (Double.num c) = Double.nan ∨ std_min p (Double.num c) ≤ Double.num c) ∧
    (std_min p (Double.num c) = Double.nan ↔ p = Double.nan) := by
  cases p with
  | nan =>
    rw [std_min_nan]
    exact ⟨Double.not_lt_nan _, Or.inl rfl, Iff.rfl⟩
  | num x =>
    rw [std_min_num_num]
    refine ⟨?_, Or.inr ?_, ?_⟩
    · rw [Double.num_lt_num]
      exact not_lt.mpr (std_min_le_right x c)
    · rw [Double.num_le_num]
      exact std_min_le_right x c
    · constructor <;> intro h <;> cases h

theorem cmath_pow_nonneg {α : Type*} [LinearOrderedField α] (is_integer : α → Bool)
    (rpow : α → α → α) (hrpow : ∀ x y, 0 ≤ x → 0 ≤ rpow x y) (x y : α) (hx : 0 ≤ x) :
    ∃ u, 0 ≤ u ∧ cmath_pow is_integer rpow (Double.num x) (Double.num y) = Double.num u := by
  simp only [cmath_pow]
  split_ifs with h1 h2 h3
  · exact ⟨1, zero_le_one, rfl⟩
  · exact ⟨1, zero_le_one, rfl⟩
  · exact absurd h3.1 (not_lt.mpr hx)
  · exact ⟨rpow x y, hrpow x y hx, rfl⟩

theorem ramp_iterate_nonneg {α : Type*} [LinearOrderedField α] (is_integer : α → Bool)
    (rpow : α → α → α) (hrpow : ∀ x y, 0 ≤ x → 0 ≤ rpow x y) (c y x : α) (hc : 0 ≤ c)
    (hx : 0 ≤ x) (n : Nat) :
    ∃ v, 0 ≤ v ∧ (n ≠ 0 → v ≤ c) ∧
      (fun a => std_min (cmath_pow is_integer rpow a (Double.num y)) (Double.num c))^[n]
        (Double.num x) = Double.num v := by
  induction n with
  | zero => exact ⟨x, hx, fun h => absurd rfl h, rfl⟩
  | succ n ih =>
    obtain ⟨v, hv, _, hiter⟩ := ih
    obtain ⟨u, hu, hpow⟩ := cmath_pow_nonneg is_integer rpow hrpow v y hv
    refine ⟨std_min u c, ?_, fun _ => std_min_le_right u c, ?_⟩
    · rw [std_min_eq_min]
      exact le_min hu hc
    · rw [Function.iterate_succ_apply', hiter, hpow, std_min_num_num]

/-! ## C4 -/

/-- Claim C4, refuted as stated.  With `pow` as `<cmath>` defines it on the reals, the
starting value `-8` and the exponent `3/2 > 1`, `pow(-8, 1.5)` is a domain error and gives
NaN, `std::min(NaN, 1e6)` is NaN, and `NaN <= 1e6` is false; likewise for
`UNDER_RELAXATION` and `10.0`. -/
theorem ramp_yields_nan :
    (1 : ℝ) < 3 / 2 ∧
    cfl_ramp_step (cmath_pow (fun y : ℝ => decide ((⌊y⌋ : ℝ) = y)) (fun x y => x ^ y))
      (Double.num (3 / 2)) (Double.num (-8)) = Double.nan ∧
    ¬ (cfl_ramp_step (cmath_pow (fun y : ℝ => decide ((⌊y⌋ : ℝ) = y)) (fun x y => x ^ y))
      (Double.num (3 / 2)) (Double.num (-8)) ≤ 1e6) ∧
    under_relaxation_ramp_step
      (cmath_pow (fun y : ℝ => decide ((⌊y⌋ : ℝ) = y)) (fun x y => x ^ y))
      (Double.num (3 / 2)) (Double.num (-8)) = Double.nan ∧
    ¬ (under_relaxation_ramp_step
      (cmath_pow (fun y : ℝ => decide ((⌊y⌋ : ℝ) = y)) (fun x y => x ^ y))
      (Double.num (3 / 2)) (Double.num (-8)) ≤ 10.0) := by
  have hfloor : ⌊(3 / 2 : ℝ)⌋ = 1 := by
    rw [Int.floor_eq_iff]
    constructor <;> norm_num
  have hpow : cmath_pow (fun y : ℝ => decide ((⌊y⌋ : ℝ) = y)) (fun x y => x ^ y)
      (Double.num (-8)) (Double.num (3 / 2)) = Double.nan := by
    simp only [cmath_pow]
    rw [if_neg (by norm_num), if_neg (by norm_num), if_pos]
    refine ⟨by norm_num, ?_⟩
    rw [hfloor]
    exact decide_eq_false (by norm_num)
  have h1 : cfl_ramp_step (cmath_pow (fun y : ℝ => decide ((⌊y⌋ : ℝ) = y)) (fun x y => x ^ y))
      (Double.num (3 / 2)) (Double.num (-8)) = Double.nan := by
    unfold cfl_ramp_step
    rw [hpow, std_min_nan]
  have h2 : under_relaxation_ramp_step
      (cmath_pow (fun y : ℝ => decide ((⌊y⌋ : ℝ) = y)) (fun x y => x ^ y))
      (Double.num (3 / 2)) (Double.num (-8)) = Double.nan := by
    unfold under_relaxation_ramp_step
    rw [hpow, std_min_nan]
  refine ⟨by norm_num, h1, ?_, h2, ?_⟩
  · rw [h1]
    exact Double.not_nan_le _
  · rw [h2]
    exact Double.not_nan_le _

/-- Claim C4, amended.  After `n ≥ 1` applications of the ramp assignments of
`Solver::solve`, whatever the starting values, the exponents and the values `pow` returns,
NaN included: `CFL` is never above `1e6` and `UNDER_RELAXATION` never above `10.0`; each is
either NaN or `<=` its ceiling, and it is NaN exactly when `pow` returned NaN in the last
application.  The same holds after the guarded ramp blocks whenever their guards let the
assignments run.  With `pow` as `<cmath>` defines it and starting values `≥ 0`, no NaN
arises and `CFL <= 1e6`, `UNDER_RELAXATION <= 10.0`. -/
theorem ramp_ceiling {α : Type*} [LinearOrderedField α]
    (pow : Double α → Double α → Double α) (is_integer : α → Bool) (rpow : α → α → α)
    (config : Config (Double α))
    (cfl_ramp_exponent under_relaxation_ramp_exponent CFL UNDER_RELAXATION : Double α)
    (n : Nat) (hn : 1 ≤ n) :
    (¬ (1e6 < (cfl_ramp_step pow cfl_ramp_exponent)^[n] CFL) ∧
      ((cfl_ramp_step pow cfl_ramp_exponent)^[n] CFL = Double.nan ∨
        (cfl_ramp_step pow cfl_ramp_exponent)^[n] CFL ≤ 1e6) ∧
      ((cfl_ramp_step pow cfl_ramp_exponent)^[n] CFL = Double.nan ↔
        pow ((cfl_ramp_step pow cfl_ramp_exponent)^[n - 1] CFL) cfl_ramp_exponent
          = Double.nan)) ∧
    (¬ (10.0 < (under_relaxation_ramp_step pow under_relaxation_ramp_exponent)^[n]
        UNDER_RELAXATION) ∧
      ((under_relaxation_ramp_step pow under_relaxation_ramp_exponent)^[n] UNDER_RELAXATION
          = Double.nan ∨
        (under_relaxation_ramp_step pow under_relaxation_ramp_exponent)^[n] UNDER_RELAXATION
          ≤ 10.0) ∧
      ((under_relaxation_ramp_step pow under_relaxation_ramp_exponent)^[n] UNDER_RELAXATION
          = Double.nan ↔
        pow ((under_relaxation_ramp_step pow under_relaxation_ramp_exponent)^[n - 1]
          UNDER_RELAXATION) under_relaxation_ramp_exponent = Double.nan)) ∧
    (∀ counter, config.cfl_ramp = true → counter > config.cfl_ramp_iteration →
      ¬ (1e6 < ramp_cfl pow config counter CFL) ∧
      (ramp_cfl pow config counter CFL = Double.nan ∨
        ramp_cfl pow config counter CFL ≤ 1e6)) ∧
    (∀ counter, config.under_relaxation_ramp = true →
      counter > config.under_relaxation_ramp_iteration →
      ¬ (10.0 < ramp_under_relaxation pow config counter UNDER_RELAXATION) ∧
      (ramp_under_relaxation pow config counter UNDER_RELAXATION = Double.nan ∨
        ramp_under_relaxation pow config counter UNDER_RELAXATION ≤ 10.0)) ∧
    ((∀ x y, 0 ≤ x → 0 ≤ rpow x y) → ∀ x y z w : α, 0 ≤ x → 0 ≤ z →
      (cfl_ramp_step (cmath_pow is_integer rpow) (Double.num y))^[n] (Double.num x) ≤ 1e6 ∧
      (under_relaxation_ramp_step (cmath_pow is_integer rpow) (Double.num w))^[n]
        (Double.num z) ≤ 10.0) := by
  obtain ⟨m, rfl⟩ : ∃ m, n = m + 1 := ⟨n - 1, by omega⟩
  refine ⟨?_, ?_, ?_, ?_, ?_⟩
  · rw [Function.iterate_succ_apply', Nat.add_sub_cancel]
    exact std_min_ceiling _ _
  · rw [Function.iterate_succ_apply', Nat.add_sub_cancel]
    exact std_min_ceiling _ _
  · intro counter h1 h2
    unfold ramp_cfl
    rw [if_pos h1, if_pos h2]
    exact ⟨(std_min_ceiling _ _).1, (std_min_ceiling _ _).2.1⟩
  · intro counter h1 h2
    unfold ramp_under_relaxation
    rw [if_pos h1, if_pos h2]
    exact ⟨(std_min_ceiling _ _).1, (std_min_ceiling _ _).2.1⟩
  · intro hrpow x y z w hx hz
    constructor
    · obtain ⟨v, _, hv, hiter⟩ := ramp_iterate_nonneg is_integer rpow hrpow 1e6 y x
        (by norm_num) hx (m + 1)
      have e : (cfl_ramp_step (cmath_pow is_integer rpow) (Double.num y))^[m + 1]
          (Double.num x) = Double.num v := hiter
      rw [e]
      exact (Double.num_le_num v 1e6).mpr (hv (Nat.succ_ne_zero m))
    · obtain ⟨v, _, hv, hiter⟩ := ramp_iterate_nonneg is_integer rpow hrpow 10.0 w z
        (by norm_num) hz (m + 1)
      have e : (under_relaxation_ramp_step (cmath_pow is_integer rpow) (Double.num w))^[m + 1]
          (Double.num z) = Double.num v := hiter
      rw [e]
      exact (Double.num_le_num v 10.0).mpr (hv (Nat.succ_ne_zero m))

theorem ramp_ceiling_witness :
    (cfl_ramp_step (cmath_pow (fun y : ℝ => decide ((⌊y⌋ : ℝ) = y)) (fun x y => x ^ y))
      (Double.num 2))^[3] (Double.num 1000) ≤ 1e6 ∧
    (under_relaxation_ramp_step
      (cmath_pow (fun y : ℝ => decide ((⌊y⌋ : ℝ) = y)) (fun x y => x ^ y))
      (Double.num 2))^[3] (Double.num 3) ≤ 10.0 :=
  (ramp_ceiling (cmath_pow (fun y : ℝ => decide ((⌊y⌋ : ℝ) = y)) (fun x y => x ^ y))
    (fun y : ℝ => decide ((⌊y⌋ : ℝ) = y)) (fun x y => x ^ y)
    ⟨Double.num 1000, Double.num 3, true, 0, Double.num 2, true, 0, Double.num 2, false, 1, 1,
      Double.num 1, Double.num 0, Double.num 0, Double.num 1⟩
    (Double.num 2) (Double.num 2) (Double.num 1000) (Double.num 3) 3 (by decide)).2.2.2.2
    (fun x y hx => Real.rpow_nonneg hx y) 1000 2 3 2 (by norm_num) (by norm_num)

/-! ## C5 -/

theorem pass_CFL {α : Type*} [LinearOrderedField α] (env : Env α) (s : Solver α) (n : Nat) :
    (Solver.pass env s (n + 1)).CFL =
      ramp_cfl env.pow env.config ((Solver.pass env s n).counter + 1)
        (Solver.pass env s n).CFL := rfl

theorem pass_UNDER_RELAXATION {α : Type*} [LinearOrderedField α] (env : Env α) (s : Solver α)
    (n : Nat) :
    (Solver.pass env s (n + 1)).UNDER_RELAXATION =
      ramp_under_relaxation env.pow env.config ((Solver.pass env s n).counter + 1)
        (Solver.pass env s n).UNDER_RELAXATION := rfl

theorem pass_counter {α : Type*} [LinearOrderedField α] (env : Env α) (s : Solver α)
    (n : Nat) : (Solver.pass env s n).counter = s.counter + n := by
  induction n with
  | zero => rfl
  | succ n ih =>
    show (Solver.pass env s n).counter + 1 = s.counter + (n + 1)
    rw [ih]
    ring

theorem rpow_step_bounds (x e c : ℝ) (hx : 1 ≤ x) (hc : x ≤ c) (he : 1 ≤ e) :
    x ≤ std_min (x ^ e) c ∧ 1 ≤ std_min (x ^ e) c ∧ std_min (x ^ e) c ≤ c := by
  have hpow : x ≤ x ^ e := by
    have h := Real.rpow_le_rpow_of_exponent_le hx he
    rwa [Real.rpow_one] at h
  have h1 : x ≤ std_min (x ^ e) c := by
    rw [std_min_eq_min]
    exact le_min hpow hc
  exact ⟨h1, le_trans hx h1, std_min_le_right _ _⟩

theorem ramp_cfl_bounds (config : Config ℝ) (counter : Nat) (CFL : ℝ) (h1 : 1 ≤ CFL)
    (h2 : CFL ≤ 1e6) (he : 1 ≤ config.cfl_ramp_exponent) :
    CFL ≤ ramp_cfl (fun x y => x ^ y) config counter CFL ∧
    1 ≤ ramp_cfl (fun x y => x ^ y) config counter CFL ∧
    ramp_cfl (fun x y => x ^ y) config counter CFL ≤ 1e6 := by
  unfold ramp_cfl
  split_ifs
  · exact rpow_step_bounds CFL _ _ h1 h2 he
  · exact ⟨le_refl _, h1, h2⟩
  · exact ⟨le_refl _, h1, h2⟩

theorem ramp_under_relaxation_bounds (config : Config ℝ) (counter : Nat) (UR : ℝ)
    (h1 : 1 ≤ UR) (h2 : UR ≤ 10.0) (he : 1 ≤ config.under_relaxation_ramp_exponent) :
    UR ≤ ramp_under_relaxation (fun x y => x ^ y) config counter UR ∧
    1 ≤ ramp_under_relaxation (fun x y => x ^ y) config counter UR ∧
    ramp_under_relaxation (fun x y => x ^ y) config counter UR ≤ 10.0 := by
  unfold ramp_under_relaxation
  split_ifs
  · exact rpow_step_bounds UR _ _ h1 h2 he
  · exact ⟨le_refl _, h1, h2⟩
  · exact ⟨le_refl _, h1, h2⟩

/-- Claim C5, refuted as stated.  With both ramps enabled from iteration 0 and exponent 2,
a positive start `CFL = UNDER_RELAXATION = 1/2` drops to `1/4` in the first iteration;
with exponent 1, a start above the ceilings (`CFL = 2000000`, `UNDER_RELAXATION = 20`)
drops to the ceiling. -/
theorem ramp_decreases :
    (Solver.pass (env_example Real.sqrt (fun x y : ℝ => x ^ y) (config_example (1 / 2) (1 / 2) 2))
      (Solver.create (env_example Real.sqrt (fun x y : ℝ => x ^ y)
        (config_example (1 / 2) (1 / 2) 2)) (fun _ => 0) (fun _ => 0)) 1).CFL = 1 / 4 ∧
    (Solver.pass (env_example Real.sqrt (fun x y : ℝ => x ^ y) (config_example (1 / 2) (1 / 2) 2))
      (Solver.create (env_example Real.sqrt (fun x y : ℝ => x ^ y)
        (config_example (1 / 2) (1 / 2) 2)) (fun _ => 0) (fun _ => 0)) 0).CFL = 1 / 2 ∧
    (Solver.pass (env_example Real.sqrt (fun x y : ℝ => x ^ y) (config_example (1 / 2) (1 / 2) 2))
      (Solver.create (env_example Real.sqrt (fun x y : ℝ => x ^ y)
        (config_example (1 / 2) (1 / 2) 2)) (fun _ => 0) (fun _ => 0)) 1).UNDER_RELAXATION
        = 1 / 4 ∧
    (Solver.pass (env_example Real.sqrt (fun x y : ℝ => x ^ y) (config_example (1 / 2) (1 / 2) 2))
      (Solver.create (env_example Real.sqrt (fun x y : ℝ => x ^ y)
        (config_example (1 / 2) (1 / 2) 2)) (fun _ => 0) (fun _ => 0)) 0).UNDER_RELAXATION
        = 1 / 2 ∧
    (Solver.pass (env_example Real.sqrt (fun x y : ℝ => x ^ y) (config_example 2000000 20 1))
      (Solver.create (env_example Real.sqrt (fun x y : ℝ => x ^ y)
        (config_example 2000000 20 1)) (fun _ => 0) (fun _ => 0)) 1).CFL = 1000000 ∧
    (Solver.pass (env_example Real.sqrt (fun x y : ℝ => x ^ y) (config_example 2000000 20 1))
      (Solver.create (env_example Real.sqrt (fun x y : ℝ => x ^ y)
        (config_example 2000000 20 1)) (fun _ => 0) (fun _ => 0)) 1).UNDER_RELAXATION = 10 := by
  refine ⟨?_, rfl, ?_, rfl, ?_, ?_⟩
  · rw [pass_CFL]
    show ramp_cfl (fun x y : ℝ => x ^ y) (config_example (1 / 2) (1 / 2) 2) (0 + 1) (1 / 2) = _
    simp only [ramp_cfl, config_example, cfl_ramp_step, std_min, Real.rpow_two]
    norm_num
  · rw [pass_UNDER_RELAXATION]
    show ramp_under_relaxation (fun x y : ℝ => x ^ y) (config_example (1 / 2) (1 / 2) 2)
      (0 + 1) (1 / 2) = _
    simp only [ramp_under_relaxation, config_example, under_relaxation_ramp_step, std_min,
      Real.rpow_two]
    norm_num
  · rw [pass_CFL]
    show ramp_cfl (fun x y : ℝ => x ^ y) (config_example 2000000 20 1) (0 + 1) 2000000 = _
    simp only [ramp_cfl, config_example, cfl_ramp_step, std_min, Real.rpow_one]
    norm_num
  · rw [pass_UNDER_RELAXATION]
    show ramp_under_relaxation (fun x y : ℝ => x ^ y) (config_example 2000000 20 1)
      (0 + 1) 20 = _
    simp only [ramp_under_relaxation, config_example, under_relaxation_ramp_step, std_min,
      Real.rpow_one]
    norm_num


/-- Claim C5, amended.  Along the iterations of `Solver::solve`, with `pow` the real power:
when `CFL` starts in `[1, 1e6]` and `cfl_ramp_exponent ≥ 1`, `CFL` after an iteration is
`≥` its value before, for every ramp flag and trigger iteration; likewise for
`UNDER_RELAXATION` starting in `[1, 10]`.  For every starting value, a parameter whose
ramp is disabled, or whose trigger iteration is `≥` the incremented counter, is
unchanged by the iteration. -/
theorem control_parameters_monotone (env : Env ℝ) (s : Solver ℝ) (n : Nat) :
    (env.pow = (fun x y => x ^ y) → 1 ≤ s.CFL → s.CFL ≤ 1e6 →
      1 ≤ env.config.cfl_ramp_exponent →
      (Solver.pass env s n).CFL ≤ (Solver.pass env s (n + 1)).CFL) ∧
    (env.pow = (fun x y => x ^ y) → 1 ≤ s.UNDER_RELAXATION → s.UNDER_RELAXATION ≤ 10.0 →
      1 ≤ env.config.under_relaxation_ramp_exponent →
      (Solver.pass env s n).UNDER_RELAXATION
        ≤ (Solver.pass env s (n + 1)).UNDER_RELAXATION) ∧
    (env.config.cfl_ramp = false ∨
        (Solver.pass env s (n + 1)).counter ≤ env.config.cfl_ramp_iteration →
      (Solver.pass env s (n + 1)).CFL = (Solver.pass env s n).CFL) ∧
    (env.config.under_relaxation_ramp = false ∨
        (Solver.pass env s (n + 1)).counter ≤ env.config.under_relaxation_ramp_iteration →
      (Solver.pass env s (n + 1)).UNDER_RELAXATION
        = (Solver.pass env s n).UNDER_RELAXATION) := by
  refine ⟨?_, ?_, ?_, ?_⟩
  · intro hpow h1 h2 he
    have inv : ∀ m, 1 ≤ (Solver.pass env s m).CFL ∧ (Solver.pass env s m).CFL ≤ 1e6 := by
      intro m
      induction m with
      | zero => exact ⟨h1, h2⟩
      | succ m ih =>
        rw [pass_CFL, hpow]
        exact (ramp_cfl_bounds env.config _ _ ih.1 ih.2 he).2
    rw [pass_CFL, hpow]
    exact (ramp_cfl_bounds env.config _ _ (inv n).1 (inv n).2 he).1
  · intro hpow h1 h2 he
    have inv : ∀ m, 1 ≤ (Solver.pass env s m).UNDER_RELAXATION ∧
        (Solver.pass env s m).UNDER_RELAXATION ≤ 10.0 := by
      intro m
      induction m with
      | zero => exact ⟨h1, h2⟩
      | succ m ih =>
        rw [pass_UNDER_RELAXATION, hpow]
        exact (ramp_under_relaxation_bounds env.config _ _ ih.1 ih.2 he).2
    rw [pass_UNDER_RELAXATION, hpow]
    exact (ramp_under_relaxation_bounds env.config _ _ (inv n).1 (inv n).2 he).1
  · intro h
    rw [pass_CFL]
    unfold ramp_cfl
    rcases h with h | h
    · rw [h]
      rfl
    · have hc : (Solver.pass env s (n + 1)).counter = (Solver.pass env s n).counter + 1 := rfl
      rw [hc] at h
      rw [if_neg (not_lt.mpr h)]
      simp
  · intro h
    rw [pass_UNDER_RELAXATION]
    unfold ramp_under_relaxation
    rcases h with h | h
    · rw [h]
      rfl
    · have hc : (Solver.pass env s (n + 1)).counter = (Solver.pass env s n).counter + 1 := rfl
      rw [hc] at h
      rw [if_neg (not_lt.mpr h)]
      simp

theorem control_parameters_monotone_witness :
    (Solver.pass (env_example Real.sqrt (fun x y : ℝ => x ^ y) (config_example 2 2 2))
      (Solver.create (env_example Real.sqrt (fun x y : ℝ => x ^ y)
        (config_example 2 2 2)) (fun _ => 0) (fun _ => 0)) 3).CFL ≤
    (Solver.pass (env_example Real.sqrt (fun x y : ℝ => x ^ y) (config_example 2 2 2))
      (Solver.create (env_example Real.sqrt (fun x y : ℝ => x ^ y)
        (config_example 2 2 2)) (fun _ => 0) (fun _ => 0)) 4).CFL ∧
    (Solver.pass (env_example Real.sqrt (fun x y : ℝ => x ^ y) (config_example 2 2 2))
      (Solver.create (env_example Real.sqrt (fun x y : ℝ => x ^ y)
        (config_example 2 2 2)) (fun _ => 0) (fun _ => 0)) 3).UNDER_RELAXATION ≤
    (Solver.pass (env_example Real.sqrt (fun x y : ℝ => x ^ y) (config_example 2 2 2))
      (Solver.create (env_example Real.sqrt (fun x y : ℝ => x ^ y)
        (config_example 2 2 2)) (fun _ => 0) (fun _ => 0)) 4).UNDER_RELAXATION := by
  have h := control_parameters_monotone
    (env_example Real.sqrt (fun x y : ℝ => x ^ y) (config_example 2 2 2))
    (Solver.create (env_example Real.sqrt (fun x y : ℝ => x ^ y)
        (config_example 2 2 2)) (fun _ => 0) (fun _ => 0)) 3
  refine ⟨h.1 rfl ?_ ?_ ?_, h.2.1 rfl ?_ ?_ ?_⟩
  · show (1 : ℝ) ≤ 2
    norm_num
  · show (2 : ℝ) ≤ 1e6
    norm_num
  · show (1 : ℝ) ≤ 2
    norm_num
  · show (1 : ℝ) ≤ 2
    norm_num
  · show (2 : ℝ) ≤ 10.0
    norm_num
  · show (1 : ℝ) ≤ 2
    norm_num

/-! ## C9 -/

theorem cell_div (njc i j : Nat) (hj : j < njc) : (i * njc + j) / njc = i := by
  have hpos : 0 < njc := by omega
  rw [Nat.add_comm, Nat.add_mul_div_right _ _ hpos, Nat.div_eq_of_lt hj, Nat.zero_add]

theorem cell_mod (njc i j : Nat) (hj : j < njc) : (i * njc + j) % njc = j := by
  rw [Nat.add_comm, Nat.add_mul_mod_self_right, Nat.mod_eq_of_lt hj]

theorem calc_dt_at {α : Type*} [LinearOrderedField α] (sqrt : α → α) (GAMMA CFL : α)
    (nic njc nq : Nat) (ds_eta ds_chi : Nat → Nat → α) (q dt : Nat → α) (i j : Nat)
    (hi : i < nic) (hj : j < njc) :
    calc_dt sqrt GAMMA CFL nic njc nq ds_eta ds_chi q dt (i * njc + j) =
      calc_dt_cell sqrt GAMMA CFL njc nq ds_eta ds_chi q i j := by
  unfold calc_dt
  have inner : ∀ a, a < nic → ∀ m : Nat → α,
      ((∃ b, b < njc ∧ i * njc + j = a * njc + b) →
        forLoop (fun b dt => Function.update dt (a * njc + b)
          (calc_dt_cell sqrt GAMMA CFL njc nq ds_eta ds_chi q a b)) njc m (i * njc + j)
          = calc_dt_cell sqrt GAMMA CFL njc nq ds_eta ds_chi q i j) ∧
      ((¬ ∃ b, b < njc ∧ i * njc + j = a * njc + b) →
        forLoop (fun b dt => Function.update dt (a * njc + b)
          (calc_dt_cell sqrt GAMMA CFL njc nq ds_eta ds_chi q a b)) njc m (i * njc + j)
          = m (i * njc + j)) := by
    intro a _ m
    constructor
    · intro hx
      refine forLoop_write _ (fun b x => b < njc ∧ x = a * njc + b)
        (fun _ => calc_dt_cell sqrt GAMMA CFL njc nq ds_eta ds_chi q i j) (i * njc + j) njc
        ?_ ?_ ?_ m
      · intro b _ m2 hP
        have hia : i = a := by
          have h1 := cell_div njc i j hj
          rw [hP.2, cell_div njc a b hP.1] at h1
          exact h1.symm
        have hjb : j = b := by
          have h1 := cell_mod njc i j hj
          rw [hP.2, cell_mod njc a b hP.1] at h1
          exact h1.symm
        subst hia
        subst hjb
        simp
      · intro b hb m2 hP
        have : i * njc + j ≠ a * njc + b := fun h => hP ⟨hb, h⟩
        simp [Function.update_noteq this]
      · obtain ⟨b, hb, hb2⟩ := hx
        exact ⟨b, hb, hb, hb2⟩
    · intro hx
      refine forLoop_frame _ (fun b x => b < njc ∧ x = a * njc + b) (i * njc + j) njc ?_ ?_ m
      · intro b hb m2 hP
        have : i * njc + j ≠ a * njc + b := fun h => hP ⟨hb, h⟩
        simp [Function.update_noteq this]
      · intro b hb hP
        exact hx ⟨b, hb, hP.2⟩
  refine forLoop_write _ (fun a x => ∃ b, b < njc ∧ x = a * njc + b)
    (fun _ => calc_dt_cell sqrt GAMMA CFL njc nq ds_eta ds_chi q i j) (i * njc + j) nic
    ?_ ?_ ⟨i, hi, j, hj, rfl⟩ dt
  · intro a ha m hP
    exact (inner a ha m).1 hP
  · intro a ha m hP
    exact (inner a ha m).2 hP

theorem calc_dt_cell_eq {α : Type*} [LinearOrderedField α] (sqrt : α → α) (GAMMA CFL : α)
    (njc nq : Nat) (ds_eta ds_chi : Nat → Nat → α) (q : Nat → α) (i j : Nat) :
    calc_dt_cell sqrt GAMMA CFL njc nq ds_eta ds_chi q i j =
      CFL * min (ds_eta i j) (ds_chi i j) /
        (sqrt (GAMMA * (primvars GAMMA (fun k => q (i * njc * nq + j * nq + k))).2.2.2 /
            (primvars GAMMA (fun k => q (i * njc * nq + j * nq + k))).1) +
          |(primvars GAMMA (fun k => q (i * njc * nq + j * nq + k))).2.1| +
          |(primvars GAMMA (fun k => q (i * njc * nq + j * nq + k))).2.2.1|) := by
  have h1 : (1.0 : α) = 1 := by norm_num
  simp only [calc_dt_cell, primvars, std_min_eq_min, h1]
  ring

/-- Claim C9.  For every cell `(i, j)` with `i < nic`, `j < njc`, `Solver::calc_dt` stores
`dt[i*njc+j] = CFL * min(ds_eta[i][j], ds_chi[i][j]) / (sqrt(GAMMA*p/rho) + |u| + |v|)`
with `rho, u, v, p` the primitive variables `primvars` derives from the four entries of `q`
at `f = i*njc*nq + j*nq`; and when `sqrt` is positive on positive arguments and
`rho > 0`, `p > 0`, `CFL > 0`, `GAMMA > 1` and both spacings are `> 0`, that entry is
strictly positive, so `1/dt` is defined. -/
theorem calc_dt_spec {α : Type*} [LinearOrderedField α] (sqrt : α → α) (GAMMA CFL : α)
    (nic njc nq : Nat) (ds_eta ds_chi : Nat → Nat → α) (q dt : Nat → α) (i j : Nat)
    (hi : i < nic) (hj : j < njc) :
    calc_dt sqrt GAMMA CFL nic njc nq ds_eta ds_chi q dt (i * njc + j) =
      CFL * min (ds_eta i j) (ds_chi i j) /
        (sqrt (GAMMA * (primvars GAMMA (fun k => q (i * njc * nq + j * nq + k))).2.2.2 /
            (primvars GAMMA (fun k => q (i * njc * nq + j * nq + k))).1) +
          |(primvars GAMMA (fun k => q (i * njc * nq + j * nq + k))).2.1| +
          |(primvars GAMMA (fun k => q (i * njc * nq + j * nq + k))).2.2.1|) ∧
    (primvars GAMMA (fun k => q (i * njc * nq + j * nq + k))).1 = q (i * njc * nq + j * nq + 0) ∧
    (primvars GAMMA (fun k => q (i * njc * nq + j * nq + k))).2.1 =
      q (i * njc * nq + j * nq + 1) / q (i * njc * nq + j * nq + 0) ∧
    (primvars GAMMA (fun k => q (i * njc * nq + j * nq + k))).2.2.1 =
      q (i * njc * nq + j * nq + 2) / q (i * njc * nq + j * nq + 0) ∧
    (primvars GAMMA (fun k => q (i * njc * nq + j * nq + k))).2.2.2 =
      (q (i * njc * nq + j * nq + 3) - 0.5 * q (i * njc * nq + j * nq + 0) *
        (q (i * njc * nq + j * nq + 1) / q (i * njc * nq + j * nq + 0) *
            (q (i * njc * nq + j * nq + 1) / q (i * njc * nq + j * nq + 0)) +
          q (i * njc * nq + j * nq + 2) / q (i * njc * nq + j * nq + 0) *
            (q (i * njc * nq + j * nq + 2) / q (i * njc * nq + j * nq + 0)))) * (GAMMA - 1) ∧
    ((∀ x, 0 < x → 0 < sqrt x) →
      0 < (primvars GAMMA (fun k => q (i * njc * nq + j * nq + k))).1 →
      0 < (primvars GAMMA (fun k => q (i * njc * nq + j * nq + k))).2.2.2 →
      0 < CFL → 1 < GAMMA → 0 < ds_eta i j → 0 < ds_chi i j →
      0 < calc_dt sqrt GAMMA CFL nic njc nq ds_eta ds_chi q dt (i * njc + j)) := by
  have heq := calc_dt_cell_eq sqrt GAMMA CFL njc nq ds_eta ds_chi q i j
  have hat := calc_dt_at sqrt GAMMA CFL nic njc nq ds_eta ds_chi q dt i j hi hj
  refine ⟨hat.trans heq, rfl, rfl, rfl, rfl, ?_⟩
  intro hsqrt hrho hp hCFL hG h1 h2
  rw [hat, heq]
  have hlam : 0 < sqrt (GAMMA * (primvars GAMMA (fun k => q (i * njc * nq + j * nq + k))).2.2.2 /
            (primvars GAMMA (fun k => q (i * njc * nq + j * nq + k))).1) := by
    apply hsqrt
    have hG0 : 0 < GAMMA := lt_trans one_pos hG
    positivity
  have hmin : 0 < min (ds_eta i j) (ds_chi i j) := lt_min h1 h2
  positivity


theorem calc_dt_spec_witness :
    0 < calc_dt Real.sqrt 2 1 1 1 4 (fun _ _ => 1) (fun _ _ => 1) q_example (fun _ => 0)
      (0 * 1 + 0) := by
  refine (calc_dt_spec Real.sqrt 2 1 1 1 4 (fun _ _ => 1) (fun _ _ => 1) q_example
    (fun _ => 0) 0 0 Nat.zero_lt_one Nat.zero_lt_one).2.2.2.2.2
    (fun x hx => Real.sqrt_pos.mpr hx) ?_ ?_ one_pos one_lt_two one_pos one_pos
  · simp [primvars, q_example]
  · simp [primvars, q_example]

/-! ## Loops that write one array position per pass -/

theorem forLoop_preserve {σ ι α : Type*} (π : σ → ι → α) (body : Nat → σ → σ) (x : ι) :
    ∀ (n : Nat), (∀ i, i < n → ∀ s, π (body i s) x = π s x) →
    ∀ s, π (forLoop body n s) x = π s x := by
  intro n
  induction n with
  | zero => intro _ s; rfl
  | succ n ih =>
    intro h s
    show π (body n (forLoop body n s)) x = π s x
    rw [h n (Nat.lt_succ_self n)]
    exact ih (fun i hi => h i (Nat.lt_succ_of_lt hi)) s

theorem forLoop_hit {σ ι α : Type*} (π : σ → ι → α) (body : Nat → σ → σ) (x : ι) (v : α)
    (i0 : Nat) : ∀ (n : Nat), i0 < n → (∀ s, π (body i0 s) x = v) →
    (∀ i, i < n → i ≠ i0 → ∀ s, π (body i s) x = π s x) →
    ∀ s, π (forLoop body n s) x = v := by
  intro n
  induction n with
  | zero => intro h; exact absurd h (Nat.not_lt_zero i0)
  | succ n ih =>
    intro hi hv hothers s
    show π (body n (forLoop body n s)) x = v
    by_cases h : i0 = n
    · rw [← h]
      exact hv _
    · rw [hothers n (Nat.lt_succ_self n) (fun e => h e.symm)]
      exact ih (by omega) hv (fun i hi2 => hothers i (Nat.lt_succ_of_lt hi2)) s

theorem forLoop_blocks {σ : Type*} (L : σ → List Nat) (body : Nat → σ → σ) (B w : Nat) :
    ∀ (n : Nat), (∀ i, i < n → ∀ s, L (body i s) = L s ++ List.range' (B + i * w) w) →
    ∀ s, L (forLoop body n s) = L s ++ List.range' B (n * w) := by
  intro n
  induction n with
  | zero => intro _ s; simp [forLoop]
  | succ n ih =>
    intro h s
    show L (body n (forLoop body n s)) = _
    rw [h n (Nat.lt_succ_self n), ih (fun i hi => h i (Nat.lt_succ_of_lt hi)) s,
      List.append_assoc, List.range'_append_1]
    congr 2
    ring

theorem tripleLoop_miss {σ ι α : Type*} [DecidableEq ι] (π : σ → ι → α)
    (w : Nat → Nat → Nat → σ → σ) (idx : Nat → Nat → Nat → ι) (val : Nat → Nat → Nat → α)
    (hw : ∀ i j k s, π (w i j k s) = Function.update (π s) (idx i j k) (val i j k))
    (nic njc nq : Nat) (x : ι)
    (hx : ∀ i j k, i < nic → j < njc → k < nq → idx i j k ≠ x) (s : σ) :
    π (forLoop (fun i s => forLoop (fun j s => forLoop (fun k s => w i j k s) nq s) njc s)
      nic s) x = π s x := by
  refine forLoop_preserve π _ x nic (fun i hi s => ?_) s
  refine forLoop_preserve π _ x njc (fun j hj s => ?_) s
  refine forLoop_preserve π _ x nq (fun k hk s => ?_) s
  rw [hw, Function.update_noteq (hx i j k hi hj hk).symm]

theorem tripleLoop_hit {σ ι α : Type*} [DecidableEq ι] (π : σ → ι → α)
    (w : Nat → Nat → Nat → σ → σ) (idx : Nat → Nat → Nat → ι) (val : Nat → Nat → Nat → α)
    (hw : ∀ i j k s, π (w i j k s) = Function.update (π s) (idx i j k) (val i j k))
    (nic njc nq : Nat)
    (hinj : ∀ i j k i2 j2 k2, j < njc → k < nq → j2 < njc → k2 < nq →
      idx i j k = idx i2 j2 k2 → i = i2 ∧ j = j2 ∧ k = k2)
    (i0 j0 k0 : Nat) (hi : i0 < nic) (hj : j0 < njc) (hk : k0 < nq) (s : σ) :
    π (forLoop (fun i s => forLoop (fun j s => forLoop (fun k s => w i j k s) nq s) njc s)
      nic s) (idx i0 j0 k0) = val i0 j0 k0 := by
  refine forLoop_hit π _ (idx i0 j0 k0) (val i0 j0 k0) i0 nic hi (fun s => ?_)
    (fun i _ hne s => ?_) s
  · refine forLoop_hit π _ (idx i0 j0 k0) (val i0 j0 k0) j0 njc hj (fun s => ?_)
      (fun j hj2 hne s => ?_) s
    · refine forLoop_hit π _ (idx i0 j0 k0) (val i0 j0 k0) k0 nq hk (fun s => ?_)
        (fun k hk2 hne s => ?_) s
      · rw [hw, Function.update_same]
      · rw [hw, Function.update_noteq]
        intro e
        exact hne (hinj i0 j0 k0 i0 j0 k hj hk hj hk2 e).2.2.symm
    · refine forLoop_preserve π _ (idx i0 j0 k0) nq (fun k hk2 s => ?_) s
      rw [hw, Function.update_noteq]
      intro e
      exact hne (hinj i0 j0 k0 i0 j k hj hk hj2 hk2 e).2.1.symm
  · refine forLoop_preserve π _ (idx i0 j0 k0) njc (fun j hj2 s => ?_) s
    refine forLoop_preserve π _ (idx i0 j0 k0) nq (fun k hk2 s => ?_) s
    rw [hw, Function.update_noteq]
    intro e
    exact hne (hinj i0 j0 k0 i j k hj hk hj2 hk2 e).1.symm

/-! ## The flattening `(i,j,k) ↦ i*njc*nq + j*nq + k` -/

theorem flat_mod_nq (njc nq i j k : Nat) (hk : k < nq) :
    (i * njc * nq + j * nq + k) % nq = k := by
  have h : i * njc * nq + j * nq + k = k + nq * (i * njc + j) := by ring
  rw [h, Nat.add_mul_mod_self_left, Nat.mod_eq_of_lt hk]

theorem flat_inj (njc nq i j k i2 j2 k2 : Nat) (hj : j < njc) (hk : k < nq)
    (hj2 : j2 < njc) (hk2 : k2 < nq)
    (h : i * njc * nq + j * nq + k = i2 * njc * nq + j2 * nq + k2) :
    i = i2 ∧ j = j2 ∧ k = k2 := by
  have hkk : k = k2 := by
    have h1 := flat_mod_nq njc nq i j k hk
    rw [h, flat_mod_nq njc nq i2 j2 k2 hk2] at h1
    exact h1.symm
  have hcell : i * njc + j = i2 * njc + j2 := by
    have h1 := flat_div_nq njc nq i j k hk
    rw [h, flat_div_nq njc nq i2 j2 k2 hk2] at h1
    exact h1.symm
  have hii : i = i2 := by
    have h1 := cell_div njc i j hj
    rw [hcell, cell_div njc i2 j2 hj2] at h1
    exact h1.symm
  have hjj : j = j2 := by
    have h1 := cell_mod njc i j hj
    rw [hcell, cell_mod njc i2 j2 hj2] at h1
    exact h1.symm
  exact ⟨hii, hjj, hkk⟩

theorem flat_lt (nic njc nq i j k : Nat) (hi : i < nic) (hj : j < njc) (hk : k < nq) :
    i * njc * nq + j * nq + k < nic * njc * nq := by
  have h1 : i * njc + j + 1 ≤ nic * njc := by
    have : (i + 1) * njc ≤ nic * njc := Nat.mul_le_mul_right njc hi
    have h2 : (i + 1) * njc = i * njc + njc := by ring
    omega
  have h3 : (i * njc + j + 1) * nq ≤ nic * njc * nq := Nat.mul_le_mul_right nq h1
  have h4 : (i * njc + j + 1) * nq = i * njc * nq + j * nq + nq := by ring
  omega

theorem flat_surj (nic njc nq x : Nat) (hx : x < nic * njc * nq) :
    ∃ i j k, i < nic ∧ j < njc ∧ k < nq ∧ i * njc * nq + j * nq + k = x := by
  have hnq : 0 < nq := by
    rcases Nat.eq_zero_or_pos nq with h | h
    · subst h; simp at hx
    · exact h
  have hnjc : 0 < njc := by
    rcases Nat.eq_zero_or_pos njc with h | h
    · subst h; simp at hx
    · exact h
  refine ⟨x / nq / njc, x / nq % njc, x % nq, ?_, Nat.mod_lt _ hnjc, Nat.mod_lt _ hnq, ?_⟩
  · rw [Nat.div_lt_iff_lt_mul hnjc, Nat.div_lt_iff_lt_mul hnq]
    exact hx
  · have h1 : x / nq / njc * njc + x / nq % njc = x / nq := by
      rw [Nat.mul_comm]
      exact Nat.div_add_mod (x / nq) njc
    have h2 : x / nq * nq + x % nq = x := by
      rw [Nat.mul_comm]
      exact Nat.div_add_mod x nq
    calc x / nq / njc * njc * nq + x / nq % njc * nq + x % nq
        = (x / nq / njc * njc + x / nq % njc) * nq + x % nq := by ring
      _ = x := by rw [h1, h2]

theorem flat_lex (njc nq i j k i2 j2 k2 : Nat) (hj : j < njc) (hk : k < nq)
    (h : i < i2 ∨ (i = i2 ∧ (j < j2 ∨ (j = j2 ∧ k < k2)))) :
    flat njc nq i j k < flat njc nq i2 j2 k2 := by
  unfold flat
  rcases h with h | ⟨rfl, h | ⟨rfl, h⟩⟩
  · have h1 := flat_lt (i + 1) njc nq i j k (Nat.lt_succ_self i) hj hk
    have h2 : (i + 1) * njc * nq ≤ i2 * njc * nq :=
      Nat.mul_le_mul_right nq (Nat.mul_le_mul_right njc h)
    omega
  · have h1 : (j + 1) * nq ≤ j2 * nq := Nat.mul_le_mul_right nq h
    have h2 : (j + 1) * nq = j * nq + nq := by ring
    omega
  · omega

/-! ## `copy_from_solution` and `copy_to_solution` -/

theorem copy_from_solution_hit {α : Type*} (nic njc nq : Nat) (sol : Sol α) (q : Traced Nat α)
    (i j k : Nat) (hi : i < nic) (hj : j < njc) (hk : k < nq) :
    (copy_from_solution nic njc nq sol q).mem (i * njc * nq + j * nq + k) = sol (i, j, k) :=
  tripleLoop_hit Traced.mem
    (fun i j k (s : Traced Nat α) => s.write (i * njc * nq + j * nq + k) (sol (i, j, k)))
    (fun i j k => i * njc * nq + j * nq + k) (fun i j k => sol (i, j, k))
    (fun _ _ _ _ => rfl) nic njc nq
    (fun i j k i2 j2 k2 hj hk hj2 hk2 h => flat_inj njc nq i j k i2 j2 k2 hj hk hj2 hk2 h)
    i j k hi hj hk q

theorem copy_from_solution_miss {α : Type*} (nic njc nq : Nat) (sol : Sol α)
    (q : Traced Nat α) (x : Nat) (hx : nic * njc * nq ≤ x) :
    (copy_from_solution nic njc nq sol q).mem x = q.mem x :=
  tripleLoop_miss Traced.mem
    (fun i j k (s : Traced Nat α) => s.write (i * njc * nq + j * nq + k) (sol (i, j, k)))
    (fun i j k => i * njc * nq + j * nq + k) (fun i j k => sol (i, j, k))
    (fun _ _ _ _ => rfl) nic njc nq x
    (fun i j k hi hj hk => by
      have := flat_lt nic njc nq i j k hi hj hk
      show i * njc * nq + j * nq + k ≠ x
      omega) q

theorem copy_from_solution_writes {α : Type*} (nic njc nq : Nat) (sol : Sol α)
    (q : Traced Nat α) :
    (copy_from_solution nic njc nq sol q).writes = q.writes ++ List.range (nic * njc * nq) := by
  unfold copy_from_solution
  have inner : ∀ i j (s : Traced Nat α),
      (forLoop (fun k (q : Traced Nat α) =>
        q.write (i * njc * nq + j * nq + k) (sol (i, j, k))) nq s).writes
        = s.writes ++ List.range' (i * njc * nq + j * nq) nq := by
    intro i j s
    have h := forLoop_blocks Traced.writes
      (fun k (q : Traced Nat α) => q.write (i * njc * nq + j * nq + k) (sol (i, j, k)))
      (i * njc * nq + j * nq) 1 nq (fun k _ s => by simp [Traced.write]) s
    rw [Nat.mul_one] at h
    exact h
  have middle : ∀ i (s : Traced Nat α),
      (forLoop (fun j q => forLoop (fun k (q : Traced Nat α) =>
        q.write (i * njc * nq + j * nq + k) (sol (i, j, k))) nq q) njc s).writes
        = s.writes ++ List.range' (i * njc * nq) (njc * nq) :=
    fun i s => forLoop_blocks Traced.writes _ (i * njc * nq) nq njc
      (fun j _ s => inner i j s) s
  have outer := forLoop_blocks Traced.writes
    (fun i q => forLoop (fun j q => forLoop (fun k (q : Traced Nat α) =>
        q.write (i * njc * nq + j * nq + k) (sol (i, j, k))) nq q) njc q)
    0 (njc * nq) nic (fun i _ s => by
      rw [middle i s, Nat.zero_add, Nat.mul_assoc]) q
  rw [outer, List.range_eq_range', Nat.mul_assoc]

theorem copy_to_solution_hit {α : Type*} (nic njc nq : Nat) (q : Nat → α) (sol : Sol α)
    (i j k : Nat) (hi : i < nic) (hj : j < njc) (hk : k < nq) :
    copy_to_solution nic njc nq q sol (i, j, k) = q (i * njc * nq + j * nq + k) :=
  tripleLoop_hit (fun (s : Sol α) => s)
    (fun i j k (s : Sol α) => Function.update s (i, j, k) (q (i * njc * nq + j * nq + k)))
    (fun i j k => (i, j, k)) (fun i j k => q (i * njc * nq + j * nq + k))
    (fun _ _ _ _ => rfl) nic njc nq
    (fun i j k i2 j2 k2 _ _ _ _ h => by
      simp only [Prod.mk.injEq] at h
      exact h)
    i j k hi hj hk sol

theorem copy_to_solution_miss {α : Type*} (nic njc nq : Nat) (q : Nat → α) (sol : Sol α)
    (t : Nat × Nat × Nat) (ht : ¬ (t.1 < nic ∧ t.2.1 < njc ∧ t.2.2 < nq)) :
    copy_to_solution nic njc nq q sol t = sol t :=
  tripleLoop_miss (fun (s : Sol α) => s)
    (fun i j k (s : Sol α) => Function.update s (i, j, k) (q (i * njc * nq + j * nq + k)))
    (fun i j k => (i, j, k)) (fun i j k => q (i * njc * nq + j * nq + k))
    (fun _ _ _ _ => rfl) nic njc nq t
    (fun i j k hi hj hk e => ht (by rw [← e]; exact ⟨hi, hj, hk⟩)) sol

/-! ## C10 -/

/-- Claim C10.  The map `(i,j,k) ↦ i*njc*nq + j*nq + k` is a bijection from
`[0,nic) × [0,njc) × [0,nq)` onto `[0, nic*njc*nq)` and is increasing for the
lexicographic order of `(i,j,k)` (row-major).  `copy_from_solution` sets
`q[i*njc*nq + j*nq + k] = solution.q[i][j][k]` for every `(i,j,k)` in range, assigns the
positions `0, 1, ..., nic*njc*nq - 1` in this order, each exactly once, and no other
position.  `copy_to_solution` followed by `copy_from_solution` leaves `q` unchanged, and
`copy_from_solution` followed by `copy_to_solution` leaves the mesh solution unchanged.
When the array length `nic*njc*nq` fits the 32-bit index type, the position computed in
`uint` arithmetic is the one computed here without wrap-around. -/
theorem flatten_copy {α : Type*} (nic njc nq : Nat) (sol : Sol α) (q : Nat → α) :
    Set.BijOn (fun t : Nat × Nat × Nat => flat njc nq t.1 t.2.1 t.2.2)
      {t | t.1 < nic ∧ t.2.1 < njc ∧ t.2.2 < nq} {x | x < nic * njc * nq} ∧
    (∀ i j k i2 j2 k2, j < njc → k < nq → j2 < njc → k2 < nq →
      (i < i2 ∨ (i = i2 ∧ (j < j2 ∨ (j = j2 ∧ k < k2)))) →
      flat njc nq i j k < flat njc nq i2 j2 k2) ∧
    (∀ i j k, i < nic → j < njc → k < nq →
      (copy_from_solution nic njc nq sol (Traced.start q)).mem (i * njc * nq + j * nq + k)
        = sol (i, j, k)) ∧
    (∀ x, nic * njc * nq ≤ x →
      (copy_from_solution nic njc nq sol (Traced.start q)).mem x = q x) ∧
    (copy_from_solution nic njc nq sol (Traced.start q)).writes
      = List.range (nic * njc * nq) ∧
    (∀ x, x < nic * njc * nq →
      List.count x (copy_from_solution nic njc nq sol (Traced.start q)).writes = 1) ∧
    (copy_from_solution nic njc nq (copy_to_solution nic njc nq q sol) (Traced.start q)).mem
      = q ∧
    copy_to_solution nic njc nq (copy_from_solution nic njc nq sol (Traced.start q)).mem sol
      = sol ∧
    (nic * njc * nq ≤ 2 ^ 32 → ∀ i j k, i < nic → j < njc → k < nq →
      (i * njc * nq + j * nq + k) % 2 ^ 32 = flat njc nq i j k) := by
  have hwrites : (copy_from_solution nic njc nq sol (Traced.start q)).writes
      = List.range (nic * njc * nq) := by
    rw [copy_from_solution_writes]
    rfl
  refine ⟨⟨?_, ?_, ?_⟩, ?_, ?_, ?_, hwrites, ?_, ?_, ?_, ?_⟩
  rotate_right
  · intro hsize i j k hi hj hk
    exact Nat.mod_eq_of_lt (lt_of_lt_of_le (flat_lt nic njc nq i j k hi hj hk) hsize)
  · intro t ht
    exact flat_lt nic njc nq t.1 t.2.1 t.2.2 ht.1 ht.2.1 ht.2.2
  · intro t ht t2 ht2 h
    obtain ⟨h1, h2, h3⟩ := flat_inj njc nq t.1 t.2.1 t.2.2 t2.1 t2.2.1 t2.2.2
      ht.2.1 ht.2.2 ht2.2.1 ht2.2.2 h
    exact Prod.ext h1 (Prod.ext h2 h3)
  · intro x hx
    obtain ⟨i, j, k, hi, hj, hk, h⟩ := flat_surj nic njc nq x hx
    exact ⟨(i, j, k), ⟨hi, hj, hk⟩, h⟩
  · intro i j k i2 j2 k2 hj hk _ _ h
    exact flat_lex njc nq i j k i2 j2 k2 hj hk h
  · intro i j k hi hj hk
    exact copy_from_solution_hit nic njc nq sol _ i j k hi hj hk
  · intro x hx
    exact copy_from_solution_miss nic njc nq sol (Traced.start q) x hx
  · intro x hx
    rw [hwrites]
    exact List.count_eq_one_of_mem (List.nodup_range _) (List.mem_range.mpr hx)
  · funext x
    by_cases hx : x < nic * njc * nq
    · obtain ⟨i, j, k, hi, hj, hk, rfl⟩ := flat_surj nic njc nq x hx
      rw [copy_from_solution_hit nic njc nq _ _ i j k hi hj hk,
        copy_to_solution_hit nic njc nq q sol i j k hi hj hk]
    · exact copy_from_solution_miss nic njc nq _ (Traced.start q) x (not_lt.mp hx)
  · funext t
    by_cases ht : t.1 < nic ∧ t.2.1 < njc ∧ t.2.2 < nq
    · obtain ⟨i, j, k⟩ := t
      rw [copy_to_solution_hit nic njc nq _ sol i j k ht.1 ht.2.1 ht.2.2,
        copy_from_solution_hit nic njc nq sol _ i j k ht.1 ht.2.1 ht.2.2]
    · exact copy_to_solution_miss nic njc nq _ sol t ht


/-! ## `set_rhs` and `solve_and_update` -/

theorem forLoop_pointwise_proj {σ α : Type*} (π : σ → Nat → α) (f : Nat → α → α)
    (body : Nat → σ → σ) (hb : ∀ i s, π (body i s) = Function.update (π s) i (f i (π s i)))
    (n : Nat) (s : σ) (x : Nat) :
    π (forLoop body n s) x = if x < n then f x (π s x) else π s x := by
  induction n with
  | zero => simp [forLoop]
  | succ n ih =>
    show π (body n (forLoop body n s)) x = _
    rw [hb]
    by_cases hx : x = n
    · subst hx
      have hself : π (forLoop body x s) x = π s x := by
        have h := ih
        simp only [lt_irrefl, if_false] at h
        exact h
      simp [hself]
    · rw [Function.update_noteq hx, ih]
      have : x < n + 1 ↔ x < n := by omega
      simp only [this]

theorem solve_and_update_mem {α : Type*} [Add α] [Mul α]
    (KSPSolve : Mat α → (Nat → α) → (Nat → α)) (ls : LinearSolverPetsc α)
    (q : Traced Nat α) (ur : α) (x : Nat) :
    (ls.solve_and_update KSPSolve q ur).2.mem x =
      if x < ls.nic * ls.njc * (ls.nq + ls.ntrans)
      then q.mem x + KSPSolve ls.jac ls.rhs x * ur else q.mem x :=
  forLoop_pointwise_proj Traced.mem (fun i v => v + KSPSolve ls.jac ls.rhs i * ur) _
    (fun _ _ => rfl) _ q x

theorem solve_and_update_reads {α : Type*} [Add α] [Mul α]
    (KSPSolve : Mat α → (Nat → α) → (Nat → α)) (ls : LinearSolverPetsc α)
    (q : Traced Nat α) (ur : α) :
    (ls.solve_and_update KSPSolve q ur).2.reads =
      q.reads ++ List.range (ls.nic * ls.njc * (ls.nq + ls.ntrans)) := by
  have h := forLoop_blocks Traced.reads
    (fun i (q : Traced Nat α) =>
      (q.read i).2.write i ((q.read i).1 + KSPSolve ls.jac ls.rhs i * ur))
    0 1 (ls.nic * ls.njc * (ls.nq + ls.ntrans))
    (fun k _ s => by simp [Traced.write, Traced.read]) q
  rw [Nat.mul_one, ← List.range_eq_range'] at h
  exact h

theorem solve_and_update_writes {α : Type*} [Add α] [Mul α]
    (KSPSolve : Mat α → (Nat → α) → (Nat → α)) (ls : LinearSolverPetsc α)
    (q : Traced Nat α) (ur : α) :
    (ls.solve_and_update KSPSolve q ur).2.writes =
      q.writes ++ List.range (ls.nic * ls.njc * (ls.nq + ls.ntrans)) := by
  have h := forLoop_blocks Traced.writes
    (fun i (q : Traced Nat α) =>
      (q.read i).2.write i ((q.read i).1 + KSPSolve ls.jac ls.rhs i * ur))
    0 1 (ls.nic * ls.njc * (ls.nq + ls.ntrans))
    (fun k _ s => by simp [Traced.write, Traced.read]) q
  rw [Nat.mul_one, ← List.range_eq_range'] at h
  exact h

theorem set_rhs_loop {α : Type*} (ls : LinearSolverPetsc α) (v : Traced Nat α) (n : Nat) :
    (forLoop set_rhs_body n (ls, v)).2.mem = v.mem ∧
    (forLoop set_rhs_body n (ls, v)).2.reads = v.reads ++ List.range n ∧
    (forLoop set_rhs_body n (ls, v)).2.writes = v.writes ∧
    (∀ x, (forLoop set_rhs_body n (ls, v)).1.rhs x = if x < n then v.mem x else ls.rhs x) := by
  induction n with
  | zero => exact ⟨rfl, by simp [forLoop], rfl, fun x => by simp [forLoop]⟩
  | succ n ih =>
    obtain ⟨h1, h2, h3, h4⟩ := ih
    refine ⟨h1, ?_, h3, ?_⟩
    · show (forLoop set_rhs_body n (ls, v)).2.reads ++ [n] = _
      rw [h2, List.range_succ, List.append_assoc]
    · intro x
      show Function.update (forLoop set_rhs_body n (ls, v)).1.rhs n
        ((forLoop set_rhs_body n (ls, v)).2.mem n) x = _
      by_cases hx : x = n
      · subst hx
        simp [h1]
      · rw [Function.update_noteq hx, h4]
        have : x < n + 1 ↔ x < n := by omega
        simp only [this]

/-! ## C6 -/

/-- Claim C6, refuted as stated.  For one cell with `nq = 4` and `ntrans = 1` the driver's
`q` and `rhs` have `1*1*4 = 4` entries, yet `solve_and_update` reads and assigns `q[4]` and
`set_rhs` reads `val_rhs[4]`. -/
theorem solve_and_update_touches_beyond_nq :
    4 ∈ (backend_trans.solve_and_update (fun _ rhs => rhs) (Traced.start (fun _ => 0)) 1).2.writes ∧
    4 ∈ (backend_trans.solve_and_update (fun _ rhs => rhs) (Traced.start (fun _ => 0)) 1).2.reads ∧
    4 ∈ (backend_trans.set_rhs (Traced.start (fun _ => 0))).2.reads ∧
    ¬ (4 < backend_trans.nic * backend_trans.njc * backend_trans.nq) := by
  refine ⟨?_, ?_, ?_, by decide⟩
  · rw [solve_and_update_writes]
    exact List.mem_append_right _ (List.mem_range.mpr (by decide))
  · rw [solve_and_update_reads]
    exact List.mem_append_right _ (List.mem_range.mpr (by decide))
  · have h := (set_rhs_loop backend_trans (Traced.start (fun _ => (0 : ℚ)))
      (backend_trans.nic * backend_trans.njc * (backend_trans.nq + backend_trans.ntrans))).2.1
    unfold LinearSolverPetsc.set_rhs
    rw [h]
    exact List.mem_append_right _ (List.mem_range.mpr (by decide))

/-- Claim C6, amended.  `solve_and_update` sets `q'[i] = q[i] + dq[i]*under_relaxation` for
every `i` in `[0, nic*njc*(nq+ntrans))`, which contains `[0, nic*njc*nq)`, and leaves every
other entry of `q` as it was; it reads and assigns exactly the positions
`0, ..., nic*njc*(nq+ntrans) - 1` of `q`, and `set_rhs` reads exactly those positions of its
argument and assigns none.  When `ntrans = 0` no position outside `[0, nic*njc*nq)` is
read or assigned. -/
theorem solve_and_update_spec {α : Type*} [Add α] [Mul α]
    (KSPSolve : Mat α → (Nat → α) → (Nat → α)) (ls : LinearSolverPetsc α)
    (q val_rhs : Nat → α) (under_relaxation : α) :
    (∀ i, i < ls.nic * ls.njc * (ls.nq + ls.ntrans) →
      (ls.solve_and_update KSPSolve (Traced.start q) under_relaxation).2.mem i
        = q i + KSPSolve ls.jac ls.rhs i * under_relaxation) ∧
    (∀ i, i < ls.nic * ls.njc * ls.nq →
      (ls.solve_and_update KSPSolve (Traced.start q) under_relaxation).2.mem i
        = q i + KSPSolve ls.jac ls.rhs i * under_relaxation) ∧
    (∀ i, ls.nic * ls.njc * (ls.nq + ls.ntrans) ≤ i →
      (ls.solve_and_update KSPSolve (Traced.start q) under_relaxation).2.mem i = q i) ∧
    (ls.solve_and_update KSPSolve (Traced.start q) under_relaxation).2.reads
      = List.range (ls.nic * ls.njc * (ls.nq + ls.ntrans)) ∧
    (ls.solve_and_update KSPSolve (Traced.start q) under_relaxation).2.writes
      = List.range (ls.nic * ls.njc * (ls.nq + ls.ntrans)) ∧
    (ls.set_rhs (Traced.start val_rhs)).2.reads
      = List.range (ls.nic * ls.njc * (ls.nq + ls.ntrans)) ∧
    (ls.set_rhs (Traced.start val_rhs)).2.writes = [] ∧
    (∀ i, i < ls.nic * ls.njc * (ls.nq + ls.ntrans) →
      (ls.set_rhs (Traced.start val_rhs)).1.rhs i = val_rhs i) ∧
    (ls.ntrans = 0 → ∀ i,
      (i ∈ (ls.solve_and_update KSPSolve (Traced.start q) under_relaxation).2.reads ∨
       i ∈ (ls.solve_and_update KSPSolve (Traced.start q) under_relaxation).2.writes ∨
       i ∈ (ls.set_rhs (Traced.start val_rhs)).2.reads) →
      i < ls.nic * ls.njc * ls.nq) := by
  have hle : ls.nic * ls.njc * ls.nq ≤ ls.nic * ls.njc * (ls.nq + ls.ntrans) :=
    Nat.mul_le_mul_left _ (Nat.le_add_right _ _)
  have hr : (ls.solve_and_update KSPSolve (Traced.start q) under_relaxation).2.reads
      = List.range (ls.nic * ls.njc * (ls.nq + ls.ntrans)) := by
    rw [solve_and_update_reads]
    rfl
  have hw : (ls.solve_and_update KSPSolve (Traced.start q) under_relaxation).2.writes
      = List.range (ls.nic * ls.njc * (ls.nq + ls.ntrans)) := by
    rw [solve_and_update_writes]
    rfl
  have hset := set_rhs_loop ls (Traced.start val_rhs)
    (ls.nic * ls.njc * (ls.nq + ls.ntrans))
  have hsr : (ls.set_rhs (Traced.start val_rhs)).2.reads
      = List.range (ls.nic * ls.njc * (ls.nq + ls.ntrans)) := by
    unfold LinearSolverPetsc.set_rhs
    rw [hset.2.1]
    rfl
  refine ⟨?_, ?_, ?_, hr, hw, hsr, ?_, ?_, ?_⟩
  · intro i hi
    rw [solve_and_update_mem, if_pos hi]
    rfl
  · intro i hi
    rw [solve_and_update_mem, if_pos (lt_of_lt_of_le hi hle)]
    rfl
  · intro i hi
    rw [solve_and_update_mem, if_neg (not_lt.mpr hi)]
    rfl
  · unfold LinearSolverPetsc.set_rhs
    rw [hset.2.2.1]
    rfl
  · intro i hi
    unfold LinearSolverPetsc.set_rhs
    rw [hset.2.2.2 i, if_pos hi]
    rfl
  · intro h0 i hi
    rw [hr, hw, hsr, h0, Nat.add_zero] at hi
    rcases hi with h | h | h <;> exact List.mem_range.mp h

theorem solve_and_update_spec_witness :
    (backend_one.solve_and_update (fun _ rhs => rhs) (Traced.start (fun _ => 3)) 2).2.mem 0
      = 3 + 0 * 2 ∧
    (backend_one.solve_and_update (fun _ rhs => rhs) (Traced.start (fun _ => 3)) 2).2.writes
      = [0] ∧
    (backend_one.set_rhs (Traced.start (fun _ => 0))).2.reads = [0] := by
  have h := solve_and_update_spec (fun _ rhs => rhs) backend_one (fun _ => (3 : ℚ))
    (fun _ => (0 : ℚ)) 2
  exact ⟨h.1 0 (by decide), h.2.2.2.2.1, h.2.2.2.2.2.1⟩

/-! ## The loop of `Solver::solve` -/

theorem l2norm_inner {α : Type*} [LinearOrderedField α] (r : Nat → α) (j N : Nat)
    (l : Nat → α) :
    forLoop (fun i l => Function.update l j (l j + r i)) N l j
      = l j + Finset.sum (Finset.range N) r := by
  induction N with
  | zero => simp [forLoop]
  | succ N ih =>
    simp only [forLoop]
    rw [Function.update_same, ih, Finset.sum_range_succ, add_assoc]

theorem calc_l2norm_zero {α : Type*} [LinearOrderedField α] (sqrt : α → α)
    (nic njc nq : Nat) (hnq : 0 < nq) (rhs l2norm : Nat → α) :
    calc_l2norm sqrt nic njc nq rhs l2norm 0 =
      sqrt (Finset.sum (Finset.range (nic * njc)) (fun c => rhs (c * nq + 0) ^ 2)) := by
  unfold calc_l2norm
  refine forLoop_hit (fun (l : Nat → α) => l) _ 0 _ 0 nq hnq (fun l => ?_) (fun j _ hj l => ?_)
    l2norm
  · have h := l2norm_inner (fun i => rhs (i * nq + 0) * rhs (i * nq + 0)) 0 (nic * njc)
      (Function.update l 0 0)
    dsimp only at h ⊢
    rw [Function.update_same, h, Function.update_same, zero_add]
    congr 1
    exact Finset.sum_congr rfl (fun c _ => (sq _).symm)
  · dsimp only
    rw [Function.update_noteq (Ne.symm hj)]
    have h := forLoop_preserve (fun (l : Nat → α) => l)
      (fun i l => Function.update l j (l j + rhs (i * nq + j) * rhs (i * nq + j))) 0 (nic * njc)
      (fun i _ l => Function.update_noteq (Ne.symm hj) _ _) (Function.update l j 0)
    rw [h, Function.update_noteq (Ne.symm hj)]

theorem residual_phase_l2norm {α : Type*} [LinearOrderedField α] (env : Env α) (s : Solver α)
    (hnq : 0 < env.mesh.nq) :
    (s.residual_phase env).l2norm 0 =
      env.sqrt (Finset.sum (Finset.range (env.mesh.nic * env.mesh.njc))
        (fun c => (s.residual_phase env).rhs (c * env.mesh.nq + 0) ^ 2)) :=
  calc_l2norm_zero env.sqrt env.mesh.nic env.mesh.njc env.mesh.nq hnq _ _

theorem loop_succ {α : Type*} [LinearOrderedField α] (env : Env α) (fuel : Nat)
    (s : Solver α) :
    Solver.loop env (fuel + 1) s =
      if (s.residual_phase env).converged then
        Outcome.broke ((s.residual_phase env).finish env)
      else
        match (s.residual_phase env).update_phase env with
        | none => Outcome.died
        | some s2 => Solver.loop env fuel s2 := rfl

theorem update_phase_some {α : Type*} [LinearOrderedField α] (env : Env α) (s : Solver α)
    (h1 : env.config.stdout_frequency ≠ 0) (h2 : env.config.fileout_frequency ≠ 0) :
    s.update_phase env = some (s.update_state env) := by
  unfold Solver.update_phase
  rw [if_neg h1, if_neg h2]

theorem update_phase_none {α : Type*} [LinearOrderedField α] (env : Env α) (s : Solver α)
    (h : env.config.stdout_frequency = 0 ∨ env.config.fileout_frequency = 0) :
    s.update_phase env = none := by
  unfold Solver.update_phase
  by_cases h1 : env.config.stdout_frequency = 0
  · rw [if_pos h1]
  · rw [if_neg h1, if_pos (h.resolve_left h1)]

theorem pass_succ_front {α : Type*} [LinearOrderedField α] (env : Env α) (s : Solver α)
    (n : Nat) :
    Solver.pass env s (n + 1) = Solver.pass env ((s.residual_phase env).update_state env) n := by
  induction n with
  | zero => rfl
  | succ n ih =>
    show ((Solver.pass env s (n + 1)).residual_phase env).update_state env = _
    rw [ih]
    rfl

theorem loop_break {α : Type*} [LinearOrderedField α] (env : Env α) :
    ∀ (K : Nat) (s : Solver α),
    (K = 0 ∨ (env.config.stdout_frequency ≠ 0 ∧ env.config.fileout_frequency ≠ 0)) →
    (∀ n, n < K → ¬ ((Solver.pass env s n).residual_phase env).l2norm 0 < 1e-8) →
    ((Solver.pass env s K).residual_phase env).l2norm 0 < 1e-8 →
    (∀ fuel, fuel ≤ K → Solver.loop env fuel s = Outcome.running) ∧
    (∀ fuel, K < fuel → Solver.loop env fuel s =
      Outcome.broke (((Solver.pass env s K).residual_phase env).finish env)) := by
  intro K
  induction K with
  | zero =>
    intro s _ _ hat
    refine ⟨fun fuel hf => ?_, fun fuel hf => ?_⟩
    · have : fuel = 0 := by omega
      subst this
      rfl
    · obtain ⟨f, rfl⟩ : ∃ f, fuel = f + 1 := ⟨fuel - 1, by omega⟩
      have hc : (s.residual_phase env).converged = true := by
        unfold Solver.converged
        exact decide_eq_true hat
      rw [loop_succ, hc]
      rfl
  | succ K ih =>
    intro s hfreq hbefore hat
    have hf2 : env.config.stdout_frequency ≠ 0 ∧ env.config.fileout_frequency ≠ 0 :=
      hfreq.resolve_left (Nat.succ_ne_zero K)
    have h0 : ¬ (s.residual_phase env).l2norm 0 < 1e-8 := hbefore 0 (Nat.succ_pos K)
    have hc : (s.residual_phase env).converged = false := by
      unfold Solver.converged
      exact decide_eq_false h0
    have hstep : ∀ f, Solver.loop env (f + 1) s =
        Solver.loop env f ((s.residual_phase env).update_state env) := by
      intro f
      rw [loop_succ, hc, update_phase_some env _ hf2.1 hf2.2]
      rfl
    obtain ⟨ih1, ih2⟩ := ih ((s.residual_phase env).update_state env) (Or.inr hf2)
      (fun n hn => by
        rw [← pass_succ_front]
        exact hbefore (n + 1) (Nat.succ_lt_succ hn))
      (by rw [← pass_succ_front]; exact hat)
    refine ⟨fun fuel hf => ?_, fun fuel hf => ?_⟩
    · rcases Nat.eq_zero_or_pos fuel with h | h
      · subst h
        rfl
      · obtain ⟨f, rfl⟩ : ∃ f, fuel = f + 1 := ⟨fuel - 1, by omega⟩
        rw [hstep]
        exact ih1 f (by omega)
    · obtain ⟨f, rfl⟩ : ∃ f, fuel = f + 1 := ⟨fuel - 1, by omega⟩
      rw [hstep, pass_succ_front]
      exact ih2 f (by omega)

/-- With an output frequency of zero a pass that does not take the `break` ends in the
modulo by zero. -/
theorem loop_dies {α : Type*} [LinearOrderedField α] (env : Env α) (s : Solver α)
    (hfreq : env.config.stdout_frequency = 0 ∨ env.config.fileout_frequency = 0)
    (h0 : ¬ (s.residual_phase env).l2norm 0 < 1e-8) (fuel : Nat) (hfuel : 0 < fuel) :
    Solver.loop env fuel s = Outcome.died := by
  obtain ⟨f, rfl⟩ : ∃ f, fuel = f + 1 := ⟨fuel - 1, by omega⟩
  have hc : (s.residual_phase env).converged = false := by
    unfold Solver.converged
    exact decide_eq_false h0
  rw [loop_succ, hc, update_phase_none env _ hfreq]
  rfl

theorem pass_calls {α : Type*} [LinearOrderedField α] (env : Env α) (s : Solver α)
    (hs : s.counter = 0) (n : Nat) :
    (Solver.pass env s n).calls = s.calls ++
      ((if n = 0 then [] else [BackendCall.preallocate]) ++
        (List.replicate n
          [BackendCall.set_jac, BackendCall.set_rhs, BackendCall.solve_and_update]).flatten) := by
  induction n with
  | zero => simp [Solver.pass]
  | succ n ih =>
    have hstep : (Solver.pass env s (n + 1)).calls =
        (if (Solver.pass env s n).counter = 0
          then (Solver.pass env s n).calls ++ [BackendCall.preallocate]
          else (Solver.pass env s n).calls) ++
        [BackendCall.set_jac, BackendCall.set_rhs, BackendCall.solve_and_update] := rfl
    rw [hstep, pass_counter, hs, ih, List.replicate_succ', List.flatten_append]
    rcases Nat.eq_zero_or_pos n with h | h
    · subst h
      simp
    · have h1 : ¬ (0 + n = 0) := by omega
      have h2 : ¬ (n = 0) := by omega
      have h3 : ¬ (n + 1 = 0) := by omega
      simp [h1, h2]


theorem residual_phase_rhs {α : Type*} [LinearOrderedField α] (env : Env α) (s : Solver α)
    (x : Nat) (hx : x < env.mesh.nic * env.mesh.njc * env.mesh.nq) :
    (s.residual_phase env).rhs x =
      env.calc_residual (s.residual_phase env).a_q_ravel s.a_rhs_ravel x := by
  obtain ⟨i, j, k, hi, hj, hk, rfl⟩ := flat_surj _ _ _ x hx
  exact tripleLoop_hit (fun (r : Nat → α) => r)
    (fun i j k (r : Nat → α) =>
      Function.update r (i * env.mesh.njc * env.mesh.nq + j * env.mesh.nq + k)
        (env.calc_residual (s.residual_phase env).a_q_ravel s.a_rhs_ravel
          (i * env.mesh.njc * env.mesh.nq + j * env.mesh.nq + k)))
    (fun i j k => i * env.mesh.njc * env.mesh.nq + j * env.mesh.nq + k)
    (fun i j k => env.calc_residual (s.residual_phase env).a_q_ravel s.a_rhs_ravel
          (i * env.mesh.njc * env.mesh.nq + j * env.mesh.nq + k))
    (fun _ _ _ _ => rfl) env.mesh.nic env.mesh.njc env.mesh.nq
    (fun i j k i2 j2 k2 hj hk hj2 hk2 h => flat_inj _ _ i j k i2 j2 k2 hj hk hj2 hk2 h)
    i j k hi hj hk s.rhs

theorem residual_phase_a_q_ravel {α : Type*} [LinearOrderedField α] (env : Env α)
    (s : Solver α) (x : Nat) (hx : x < env.mesh.nic * env.mesh.njc * env.mesh.nq) :
    (s.residual_phase env).a_q_ravel x = s.q x := by
  obtain ⟨i, j, k, hi, hj, hk, rfl⟩ := flat_surj _ _ _ x hx
  exact tripleLoop_hit (fun (r : Nat → α) => r)
    (fun i j k (r : Nat → α) =>
      Function.update r (i * env.mesh.njc * env.mesh.nq + j * env.mesh.nq + k)
        (s.q (i * env.mesh.njc * env.mesh.nq + j * env.mesh.nq + k)))
    (fun i j k => i * env.mesh.njc * env.mesh.nq + j * env.mesh.nq + k)
    (fun i j k => s.q (i * env.mesh.njc * env.mesh.nq + j * env.mesh.nq + k))
    (fun _ _ _ _ => rfl) env.mesh.nic env.mesh.njc env.mesh.nq
    (fun i j k i2 j2 k2 hj hk hj2 hk2 h => flat_inj _ _ i j k i2 j2 k2 hj hk hj2 hk2 h)
    i j k hi hj hk s.a_q_ravel

theorem cell_index_lt (nic njc nq c : Nat) (hnq : 0 < nq) (hc : c < nic * njc) :
    c * nq + 0 < nic * njc * nq := by
  have h1 : (c + 1) * nq ≤ nic * njc * nq := Nat.mul_le_mul_right nq hc
  have h2 : (c + 1) * nq = c * nq + nq := by ring
  omega

theorem set_rhs_dims {α : Type*} (ls : LinearSolverPetsc α) (v : Traced Nat α) (n : Nat) :
    (forLoop set_rhs_body n (ls, v)).1.nic = ls.nic ∧
    (forLoop set_rhs_body n (ls, v)).1.njc = ls.njc ∧
    (forLoop set_rhs_body n (ls, v)).1.nq = ls.nq ∧
    (forLoop set_rhs_body n (ls, v)).1.ntrans = ls.ntrans ∧
    (forLoop set_rhs_body n (ls, v)).1.jac = ls.jac := by
  induction n with
  | zero => exact ⟨rfl, rfl, rfl, rfl, rfl⟩
  | succ n ih => exact ih

theorem backend_cycle_q {α : Type*} [Add α] [Mul α] (KSPSolve : Mat α → (Nat → α) → (Nat → α))
    (ls : LinearSolverPetsc α) (nnz : Nat) (rind cind : Nat → Nat) (values rhs q : Nat → α)
    (ur : α) :
    (∀ i, i < ls.nic * ls.njc * (ls.nq + ls.ntrans) →
      ((ls.set_jac nnz rind cind values).set_rhs (Traced.start rhs)).1.rhs i = rhs i) ∧
    (∀ x, (((ls.set_jac nnz rind cind values).set_rhs (Traced.start rhs)).1.solve_and_update
        KSPSolve (Traced.start q) ur).2.mem x =
      if x < ls.nic * ls.njc * (ls.nq + ls.ntrans) then
        q x + KSPSolve ((ls.set_jac nnz rind cind values).set_rhs (Traced.start rhs)).1.jac
          ((ls.set_jac nnz rind cind values).set_rhs (Traced.start rhs)).1.rhs x * ur
      else q x) := by
  obtain ⟨d1, d2, d3, d4, _⟩ := set_rhs_dims (ls.set_jac nnz rind cind values)
    (Traced.start rhs) (ls.nic * ls.njc * (ls.nq + ls.ntrans))
  obtain ⟨_, _, _, hrhs⟩ := set_rhs_loop (ls.set_jac nnz rind cind values)
    (Traced.start rhs) (ls.nic * ls.njc * (ls.nq + ls.ntrans))
  constructor
  · intro i hi
    have h := hrhs i
    rw [if_pos hi] at h
    exact h
  · intro x
    have h := solve_and_update_mem KSPSolve
      ((ls.set_jac nnz rind cind values).set_rhs (Traced.start rhs)).1 (Traced.start q) ur x
    have e1 : ((ls.set_jac nnz rind cind values).set_rhs (Traced.start rhs)).1.nic = ls.nic := d1
    have e2 : ((ls.set_jac nnz rind cind values).set_rhs (Traced.start rhs)).1.njc = ls.njc := d2
    have e3 : ((ls.set_jac nnz rind cind values).set_rhs (Traced.start rhs)).1.nq = ls.nq := d3
    have e4 : ((ls.set_jac nnz rind cind values).set_rhs (Traced.start rhs)).1.ntrans
        = ls.ntrans := d4
    rw [e1, e2, e3, e4] at h
    exact h

/-- The state `q` after the second part of a pass, in terms of what `KSPSolve` returns for
the assembled matrix and the right-hand side copied from `rhs`. -/
theorem update_state_q {α : Type*} [LinearOrderedField α] (env : Env α) (s : Solver α) :
    (∀ i, i < s.linearsolver.nic * s.linearsolver.njc *
        (s.linearsolver.nq + s.linearsolver.ntrans) →
      (s.update_state env).linearsolver.rhs i = s.rhs i) ∧
    (∀ x, (s.update_state env).q x =
      if x < s.linearsolver.nic * s.linearsolver.njc *
        (s.linearsolver.nq + s.linearsolver.ntrans)
      then s.q x + env.KSPSolve (s.update_state env).linearsolver.jac
        (s.update_state env).linearsolver.rhs x * s.UNDER_RELAXATION
      else s.q x) := by
  simp only [Solver.update_state, LinearSolverPetsc.preallocate, ite_self]
  exact backend_cycle_q env.KSPSolve s.linearsolver _ _ _ _ s.rhs s.q s.UNDER_RELAXATION

/-! ## The one-cell problem `env_decay` -/

theorem decay_q0 (frequency : Nat) :
    ((Solver.create (env_decay Real.sqrt (fun x y : ℝ => x ^ y) frequency)
      (fun _ => 0) (fun _ => 0)).start
        (env_decay Real.sqrt (fun x y : ℝ => x ^ y) frequency)).q 0 = 1 := by
  have h := copy_from_solution_hit 1 1 4
    ( Solver.initialize (env_decay Real.sqrt (fun x y : ℝ => x ^ y) frequency)
      (Solver.create (env_decay Real.sqrt (fun x y : ℝ => x ^ y) frequency)
        (fun _ => 0) (fun _ => 0))).solution_q
    (Traced.start (fun _ => (0 : ℝ))) 0 0 0 Nat.zero_lt_one Nat.zero_lt_one (by decide)
  have hsol : ( Solver.initialize (env_decay Real.sqrt (fun x y : ℝ => x ^ y) frequency)
      (Solver.create (env_decay Real.sqrt (fun x y : ℝ => x ^ y) frequency)
        (fun _ => 0) (fun _ => 0))).solution_q (0, 0, 0) = 1 := by
    simp [ Solver.initialize, Solver.create, env_decay, config_example, forLoop,
      Function.update, Prod.ext_iff]
  rw [hsol] at h
  exact h

theorem decay_rhs0 (frequency : Nat) :
    (((Solver.create (env_decay Real.sqrt (fun x y : ℝ => x ^ y) frequency)
      (fun _ => 0) (fun _ => 0)).start
        (env_decay Real.sqrt (fun x y : ℝ => x ^ y) frequency)).residual_phase
        (env_decay Real.sqrt (fun x y : ℝ => x ^ y) frequency)).rhs 0 = -1 := by
  rw [residual_phase_rhs _ _ 0 (show 0 < 1 * 1 * 4 from by decide)]
  show (if (0 : Nat) = 0 then _ - 2 else 0) = (-1 : ℝ)
  rw [if_pos rfl, residual_phase_a_q_ravel _ _ 0 (show 0 < 1 * 1 * 4 from by decide), decay_q0]
  norm_num

theorem decay_q1 (frequency : Nat) :
    (Solver.pass (env_decay Real.sqrt (fun x y : ℝ => x ^ y) frequency)
      ((Solver.create (env_decay Real.sqrt (fun x y : ℝ => x ^ y) frequency)
        (fun _ => 0) (fun _ => 0)).start
          (env_decay Real.sqrt (fun x y : ℝ => x ^ y) frequency)) 1).q 0 = 2 := by
  obtain ⟨h1, h2⟩ := update_state_q (env_decay Real.sqrt (fun x y : ℝ => x ^ y) frequency)
    (((Solver.create (env_decay Real.sqrt (fun x y : ℝ => x ^ y) frequency)
      (fun _ => 0) (fun _ => 0)).start
        (env_decay Real.sqrt (fun x y : ℝ => x ^ y) frequency)).residual_phase
        (env_decay Real.sqrt (fun x y : ℝ => x ^ y) frequency))
  have h3 := (h2 0).trans (if_pos (show 0 < 1 * 1 * (4 + 0) from by decide))
  have h4 := h1 0 (show 0 < 1 * 1 * (4 + 0) from by decide)
  rw [decay_rhs0] at h4
  show ((((Solver.create (env_decay Real.sqrt (fun x y : ℝ => x ^ y) frequency)
      (fun _ => 0) (fun _ => 0)).start
        (env_decay Real.sqrt (fun x y : ℝ => x ^ y) frequency)).residual_phase
        (env_decay Real.sqrt (fun x y : ℝ => x ^ y) frequency)).update_state
        (env_decay Real.sqrt (fun x y : ℝ => x ^ y) frequency)).q 0 = 2
  rw [h3]
  show ((Solver.create (env_decay Real.sqrt (fun x y : ℝ => x ^ y) frequency)
      (fun _ => 0) (fun _ => 0)).start
        (env_decay Real.sqrt (fun x y : ℝ => x ^ y) frequency)).q 0 + (-(_)) * 1 = 2
  rw [decay_q0, h4]
  norm_num

theorem decay_rhs1 (frequency : Nat) :
    ((Solver.pass (env_decay Real.sqrt (fun x y : ℝ => x ^ y) frequency)
      ((Solver.create (env_decay Real.sqrt (fun x y : ℝ => x ^ y) frequency)
        (fun _ => 0) (fun _ => 0)).start
          (env_decay Real.sqrt (fun x y : ℝ => x ^ y) frequency)) 1).residual_phase
          (env_decay Real.sqrt (fun x y : ℝ => x ^ y) frequency)).rhs 0 = 0 := by
  rw [residual_phase_rhs _ _ 0 (show 0 < 1 * 1 * 4 from by decide)]
  show (if (0 : Nat) = 0 then _ - 2 else 0) = (0 : ℝ)
  rw [if_pos rfl, residual_phase_a_q_ravel _ _ 0 (show 0 < 1 * 1 * 4 from by decide), decay_q1]
  norm_num

/-- The density norm of `env_decay` is 1 in pass 0, whatever the output frequency. -/
theorem decay_norm0 (frequency : Nat) :
    ¬ Real.sqrt (Finset.sum
      (Finset.range ((env_decay Real.sqrt (fun x y : ℝ => x ^ y) frequency).mesh.nic *
        (env_decay Real.sqrt (fun x y : ℝ => x ^ y) frequency).mesh.njc))
      (fun c => ((Solver.pass (env_decay Real.sqrt (fun x y : ℝ => x ^ y) frequency)
        ((Solver.create (env_decay Real.sqrt (fun x y : ℝ => x ^ y) frequency)
          (fun _ => 0) (fun _ => 0)).start
            (env_decay Real.sqrt (fun x y : ℝ => x ^ y) frequency)) 0).residual_phase
            (env_decay Real.sqrt (fun x y : ℝ => x ^ y) frequency)).rhs
          (c * (env_decay Real.sqrt (fun x y : ℝ => x ^ y) frequency).mesh.nq + 0) ^ 2))
      < 1e-8 := by
  show ¬ Real.sqrt (Finset.sum (Finset.range (1 * 1)) _) < 1e-8
  rw [Nat.mul_one, Finset.sum_range_one]
  show ¬ Real.sqrt ((((Solver.create (env_decay Real.sqrt (fun x y : ℝ => x ^ y) frequency)
    (fun _ => 0) (fun _ => 0)).start
      (env_decay Real.sqrt (fun x y : ℝ => x ^ y) frequency)).residual_phase
      (env_decay Real.sqrt (fun x y : ℝ => x ^ y) frequency)).rhs 0 ^ 2) < 1e-8
  rw [decay_rhs0]
  norm_num

/-- The density norm of `env_decay` is 0 in pass 1, whatever the output frequency. -/
theorem decay_norm1 (frequency : Nat) :
    Real.sqrt (Finset.sum
      (Finset.range ((env_decay Real.sqrt (fun x y : ℝ => x ^ y) frequency).mesh.nic *
        (env_decay Real.sqrt (fun x y : ℝ => x ^ y) frequency).mesh.njc))
      (fun c => ((Solver.pass (env_decay Real.sqrt (fun x y : ℝ => x ^ y) frequency)
        ((Solver.create (env_decay Real.sqrt (fun x y : ℝ => x ^ y) frequency)
          (fun _ => 0) (fun _ => 0)).start
            (env_decay Real.sqrt (fun x y : ℝ => x ^ y) frequency)) 1).residual_phase
            (env_decay Real.sqrt (fun x y : ℝ => x ^ y) frequency)).rhs
          (c * (env_decay Real.sqrt (fun x y : ℝ => x ^ y) frequency).mesh.nq + 0) ^ 2))
      < 1e-8 := by
  show Real.sqrt (Finset.sum (Finset.range (1 * 1)) _) < 1e-8
  rw [Nat.mul_one, Finset.sum_range_one]
  show Real.sqrt (((Solver.pass (env_decay Real.sqrt (fun x y : ℝ => x ^ y) frequency)
    ((Solver.create (env_decay Real.sqrt (fun x y : ℝ => x ^ y) frequency)
      (fun _ => 0) (fun _ => 0)).start
        (env_decay Real.sqrt (fun x y : ℝ => x ^ y) frequency)) 1).residual_phase
        (env_decay Real.sqrt (fun x y : ℝ => x ^ y) frequency)).rhs 0 ^ 2) < 1e-8
  rw [decay_rhs1]
  norm_num

/-! ## C3 -/

/-- Claim C3, refuted as stated.  For the one-cell problem `env_decay` with both output
frequencies 0, the density norm is `≥ 1e-8` in pass 0 and would be `< 1e-8` in pass 1
(`K = 1`), yet the loop does not break in pass 1: pass 0 computes
`counter % stdout_frequency` with `stdout_frequency == 0` and the process dies there, for
every number of passes allowed. -/
theorem solve_dies_on_zero_frequency :
    (¬ Real.sqrt (Finset.sum
      (Finset.range ((env_decay Real.sqrt (fun x y : ℝ => x ^ y) 0).mesh.nic *
        (env_decay Real.sqrt (fun x y : ℝ => x ^ y) 0).mesh.njc))
      (fun c => ((Solver.pass (env_decay Real.sqrt (fun x y : ℝ => x ^ y) 0)
        ((Solver.create (env_decay Real.sqrt (fun x y : ℝ => x ^ y) 0)
          (fun _ => 0) (fun _ => 0)).start
            (env_decay Real.sqrt (fun x y : ℝ => x ^ y) 0)) 0).residual_phase
            (env_decay Real.sqrt (fun x y : ℝ => x ^ y) 0)).rhs
          (c * (env_decay Real.sqrt (fun x y : ℝ => x ^ y) 0).mesh.nq + 0) ^ 2))
      < 1e-8) ∧
    Real.sqrt (Finset.sum
      (Finset.range ((env_decay Real.sqrt (fun x y : ℝ => x ^ y) 0).mesh.nic *
        (env_decay Real.sqrt (fun x y : ℝ => x ^ y) 0).mesh.njc))
      (fun c => ((Solver.pass (env_decay Real.sqrt (fun x y : ℝ => x ^ y) 0)
        ((Solver.create (env_decay Real.sqrt (fun x y : ℝ => x ^ y) 0)
          (fun _ => 0) (fun _ => 0)).start
            (env_decay Real.sqrt (fun x y : ℝ => x ^ y) 0)) 1).residual_phase
            (env_decay Real.sqrt (fun x y : ℝ => x ^ y) 0)).rhs
          (c * (env_decay Real.sqrt (fun x y : ℝ => x ^ y) 0).mesh.nq + 0) ^ 2))
      < 1e-8 ∧
    Solver.solve (env_decay Real.sqrt (fun x y : ℝ => x ^ y) 0) 1
      (Solver.create (env_decay Real.sqrt (fun x y : ℝ => x ^ y) 0) (fun _ => 0) (fun _ => 0))
      = Outcome.died ∧
    Solver.solve (env_decay Real.sqrt (fun x y : ℝ => x ^ y) 0) 2
      (Solver.create (env_decay Real.sqrt (fun x y : ℝ => x ^ y) 0) (fun _ => 0) (fun _ => 0))
      = Outcome.died := by
  have hdies : ∀ fuel, 0 < fuel →
      Solver.solve (env_decay Real.sqrt (fun x y : ℝ => x ^ y) 0) fuel
        (Solver.create (env_decay Real.sqrt (fun x y : ℝ => x ^ y) 0)
          (fun _ => 0) (fun _ => 0)) = Outcome.died := by
    intro fuel hfuel
    refine loop_dies _ _ (Or.inl rfl) ?_ fuel hfuel
    rw [residual_phase_l2norm _ _ (by decide)]
    exact decay_norm0 0
  exact ⟨decay_norm0 0, decay_norm1 0, hdies 1 Nat.zero_lt_one, hdies 2 Nat.zero_lt_two⟩

/-- Claim C3, amended.  Run `Solver::solve` from a freshly constructed `Solver` on a mesh
with `nq > 0`.  If the density norm `sqrt(sum over cells c of rhs[c*nq+0]^2)` computed in
pass `n` of the loop is not below `1e-8` for `n = 0..K-1` and is below `1e-8` in pass `K`,
and if `K = 0` or both output frequencies are nonzero, then the loop does not break within
`K` passes and breaks in pass `K` (any larger number of passes returns the same state),
with `counter == K` and with the backend operations invoked so far being `preallocate`
once (when `K > 0`) and then exactly `K` cycles `set_jac, set_rhs, solve_and_update`.  In
particular, when the residual in pass 0 is zero and `sqrt(0) = 0`, the driver breaks in
pass 0 with `counter == 0`, no backend operation invoked, the backend untouched and `q` as
`copy_from_solution` left it, whatever the output frequencies. -/
theorem solve_breaks_at_convergence {α : Type*} [LinearOrderedField α] (env : Env α)
    (junk : Nat → α) (sol0 : Sol α) (hnq : 0 < env.mesh.nq) :
    (∀ K : Nat,
      (K = 0 ∨ (env.config.stdout_frequency ≠ 0 ∧ env.config.fileout_frequency ≠ 0)) →
      (∀ n, n < K → ¬ env.sqrt (Finset.sum (Finset.range (env.mesh.nic * env.mesh.njc))
        (fun c => ((Solver.pass env ((Solver.create env junk sol0).start env) n).residual_phase
          env).rhs (c * env.mesh.nq + 0) ^ 2)) < 1e-8) →
      env.sqrt (Finset.sum (Finset.range (env.mesh.nic * env.mesh.njc))
        (fun c => ((Solver.pass env ((Solver.create env junk sol0).start env) K).residual_phase
          env).rhs (c * env.mesh.nq + 0) ^ 2)) < 1e-8 →
      (∀ fuel, fuel ≤ K →
        Solver.solve env fuel (Solver.create env junk sol0) = Outcome.running) ∧
      (∀ fuel, K < fuel → Solver.solve env fuel (Solver.create env junk sol0) =
        Outcome.broke
          (((Solver.pass env ((Solver.create env junk sol0).start env) K).residual_phase
            env).finish env)) ∧
      (((Solver.pass env ((Solver.create env junk sol0).start env) K).residual_phase
          env).finish env).counter = K ∧
      (((Solver.pass env ((Solver.create env junk sol0).start env) K).residual_phase
          env).finish env).calls =
        (if K = 0 then [] else [BackendCall.preallocate]) ++
          (List.replicate K
            [BackendCall.set_jac, BackendCall.set_rhs, BackendCall.solve_and_update]).flatten) ∧
    ((∀ c, c < env.mesh.nic * env.mesh.njc →
        (((Solver.create env junk sol0).start env).residual_phase env).rhs
          (c * env.mesh.nq + 0) = 0) →
      env.sqrt 0 = 0 →
      ∀ fuel, 0 < fuel → ∃ final,
        Solver.solve env fuel (Solver.create env junk sol0) = Outcome.broke final ∧
        final.counter = 0 ∧ final.calls = [] ∧
        final.q = ((Solver.create env junk sol0).start env).q ∧
        final.linearsolver = (Solver.create env junk sol0).linearsolver) := by
  constructor
  · intro K hfreq hbefore hat
    obtain ⟨h1, h2⟩ := loop_break env K ((Solver.create env junk sol0).start env) hfreq
      (fun n hn => by
        rw [residual_phase_l2norm env _ hnq]
        exact hbefore n hn)
      (by rw [residual_phase_l2norm env _ hnq]; exact hat)
    refine ⟨h1, h2, ?_, ?_⟩
    · show (Solver.pass env ((Solver.create env junk sol0).start env) K).counter = K
      rw [pass_counter]
      exact Nat.zero_add K
    · show (Solver.pass env ((Solver.create env junk sol0).start env) K).calls = _
      rw [pass_calls env _ rfl]
      rfl
  · intro hzero hsqrt fuel hfuel
    have hat : ((Solver.pass env ((Solver.create env junk sol0).start env) 0).residual_phase
        env).l2norm 0 < 1e-8 := by
      rw [residual_phase_l2norm env _ hnq]
      have hsum : Finset.sum (Finset.range (env.mesh.nic * env.mesh.njc))
          (fun c => ((Solver.pass env ((Solver.create env junk sol0).start env) 0).residual_phase
            env).rhs (c * env.mesh.nq + 0) ^ 2) = 0 := by
        apply Finset.sum_eq_zero
        intro c hc
        have h := hzero c (Finset.mem_range.mp hc)
        show (((Solver.create env junk sol0).start env).residual_phase env).rhs
          (c * env.mesh.nq + 0) ^ 2 = 0
        rw [h]
        exact zero_pow two_ne_zero
      rw [hsum, hsqrt]
      norm_num
    obtain ⟨_, h2⟩ := loop_break env 0 ((Solver.create env junk sol0).start env) (Or.inl rfl)
      (fun n hn => absurd hn (Nat.not_lt_zero n)) hat
    exact ⟨_, h2 fuel hfuel, rfl, rfl, rfl, rfl⟩

theorem solve_breaks_at_convergence_witness :
    (Solver.solve (env_decay Real.sqrt (fun x y : ℝ => x ^ y) 1) 2
        (Solver.create (env_decay Real.sqrt (fun x y : ℝ => x ^ y) 1)
          (fun _ => 0) (fun _ => 0)) =
      Outcome.broke
        (((Solver.pass (env_decay Real.sqrt (fun x y : ℝ => x ^ y) 1)
          ((Solver.create (env_decay Real.sqrt (fun x y : ℝ => x ^ y) 1)
            (fun _ => 0) (fun _ => 0)).start
              (env_decay Real.sqrt (fun x y : ℝ => x ^ y) 1)) 1).residual_phase
            (env_decay Real.sqrt (fun x y : ℝ => x ^ y) 1)).finish
            (env_decay Real.sqrt (fun x y : ℝ => x ^ y) 1)) ∧
      (((Solver.pass (env_decay Real.sqrt (fun x y : ℝ => x ^ y) 1)
          ((Solver.create (env_decay Real.sqrt (fun x y : ℝ => x ^ y) 1)
            (fun _ => 0) (fun _ => 0)).start
              (env_decay Real.sqrt (fun x y : ℝ => x ^ y) 1)) 1).residual_phase
            (env_decay Real.sqrt (fun x y : ℝ => x ^ y) 1)).finish
            (env_decay Real.sqrt (fun x y : ℝ => x ^ y) 1)).counter = 1 ∧
      (((Solver.pass (env_decay Real.sqrt (fun x y : ℝ => x ^ y) 1)
          ((Solver.create (env_decay Real.sqrt (fun x y : ℝ => x ^ y) 1)
            (fun _ => 0) (fun _ => 0)).start
              (env_decay Real.sqrt (fun x y : ℝ => x ^ y) 1)) 1).residual_phase
            (env_decay Real.sqrt (fun x y : ℝ => x ^ y) 1)).finish
            (env_decay Real.sqrt (fun x y : ℝ => x ^ y) 1)).calls =
        [BackendCall.preallocate, BackendCall.set_jac, BackendCall.set_rhs,
          BackendCall.solve_and_update] ∧
      Solver.solve (env_decay Real.sqrt (fun x y : ℝ => x ^ y) 1) 1
        (Solver.create (env_decay Real.sqrt (fun x y : ℝ => x ^ y) 1)
          (fun _ => 0) (fun _ => 0)) = Outcome.running) ∧
    (∃ final,
      Solver.solve (env_example Real.sqrt (fun x y : ℝ => x ^ y) (config_example 1 1 2)) 1
        (Solver.create (env_example Real.sqrt (fun x y : ℝ => x ^ y) (config_example 1 1 2))
          (fun _ => 0) (fun _ => 0)) = Outcome.broke final ∧
      final.counter = 0 ∧ final.calls = []) := by
  constructor
  · obtain ⟨h1, h2, h3, h4⟩ := (solve_breaks_at_convergence
      (env_decay Real.sqrt (fun x y : ℝ => x ^ y) 1) (fun _ => 0) (fun _ => 0) (by decide)).1 1
      (Or.inr ⟨Nat.one_ne_zero, Nat.one_ne_zero⟩)
      (fun n hn => by
        have hn0 : n = 0 := by omega
        subst hn0
        exact decay_norm0 1)
      (decay_norm1 1)
    exact ⟨h2 2 (by decide), h3, by rw [h4]; rfl, h1 1 (le_refl 1)⟩
  · have h := (solve_breaks_at_convergence
      (env_example Real.sqrt (fun x y : ℝ => x ^ y) (config_example 1 1 2))
      (fun _ => 0) (fun _ => 0) (by decide)).2 ?_ Real.sqrt_zero 1 Nat.zero_lt_one
    · obtain ⟨final, h1, h2, h3, _⟩ := h
      exact ⟨final, h1, h2, h3⟩
    · intro c hc
      rw [residual_phase_rhs _ _ _ (cell_index_lt _ _ _ c (by decide) hc)]
      rfl

end Structured
